import Mathlib

/-!
Shallow embedding of `src/pa2.c`, a discrete-tick CPU scheduling and
resource-arbitration engine with eight policies (FCFS, SJF, STCF, RR,
Priority, Priority+aging, PCP, PIP).

Modelling conventions:
* Processes are identified by natural-number pids; the process table is a
  total function `Nat → Process` (mirroring mutable shared `struct process`
  records reached through pointers).
* The globals `current`, `readyqueue`, `resources[..].owner` and
  `resources[..].waitqueue` form a `State` record; every policy callback is
  an explicit state transformer.
* `list_add_tail` is appending to the end of a queue; `list_del_init(&p->list)`
  unlinks `p` from whichever queue holds it, which (on states where a process
  is in at most one queue, the only states the C list primitives support) is
  the same as erasing `p` from the ready queue and from every wait queue.
* A C `NULL`-pointer dereference makes the whole call undefined: callbacks
  return `Option` (`none` = crash). A failed `assert` aborts the run:
  release callbacks return `RRes`, whose `fatal` constructor carries the
  state at the moment of the abort.
* `lifespan`, `age`, `prio` are C `unsigned int`; they are modelled as `Nat`.
  The only subtraction in the code is `lifespan - age`, computed by the
  source only under `age <= lifespan` (the documented invariant), where
  unsigned and truncated `Nat` subtraction agree; theorems that depend on a
  subtraction carry that bound as a hypothesis.
* `PRIO_MAX` renders the C maximum-priority macro, which is defined in a
  header that is not part of `src/`; the functions that read it
  (`pa_schedule`, `pcp_acquire`) take it as an explicit parameter and
  theorems quantify over it.
-/

/-- Process status, from `process.h` (`PROCESS_READY` / `PROCESS_RUNNING` /
`PROCESS_BLOCKED`); `pa2.c` only ever tests and assigns READY and BLOCKED. -/
inductive PStatus where
  | READY
  | RUNNING
  | BLOCKED
deriving DecidableEq

/-- One `struct process`: immutable `lifespan` and `prio_orig`, driver-owned
`age`, policy-mutable `prio` and `status`. The pid is the index into the
process table, not a field. -/
structure Process where
  lifespan : Nat
  age : Nat
  prio : Nat
  prio_orig : Nat
  status : PStatus
deriving DecidableEq

/-- The global mutable state visible to the policy callbacks in `pa2.c`:
`current`, `readyqueue`, the process records, and each resource's `owner`
and `waitqueue`. -/
structure State where
  current : Option Nat
  readyqueue : List Nat
  procs : Nat → Process
  owner : Nat → Option Nat
  waitq : Nat → List Nat

/-- Point update of one process record. -/
def setP (s : State) (p : Nat) (f : Process → Process) : State :=
  { s with procs := fun k => if k = p then f (s.procs k) else s.procs k }

/-- `p->status = st`. -/
def setStatus (s : State) (p : Nat) (st : PStatus) : State :=
  setP s p (fun pr => { pr with status := st })

/-- `p->prio = v`. -/
def setPrio (s : State) (p : Nat) (v : Nat) : State :=
  setP s p (fun pr => { pr with prio := v })

/-- `r->owner = o`. -/
def setOwner (s : State) (r : Nat) (o : Option Nat) : State :=
  { s with owner := fun k => if k = r then o else s.owner k }

/-- `r->owner = NULL`. -/
def clearOwner (r : Nat) (s : State) : State := setOwner s r none

/-- `list_add_tail(&p->list, &readyqueue)`. -/
def addTailReady (p : Nat) (s : State) : State :=
  { s with readyqueue := s.readyqueue ++ [p] }

/-- `list_add_tail(&p->list, &r->waitqueue)`. -/
def addTailWait (r p : Nat) (s : State) : State :=
  { s with waitq := fun k => if k = r then s.waitq k ++ [p] else s.waitq k }

/-- `list_del_init(&p->list)`: unlink `p` from the queue holding it (no-op if
`p` is in no queue). -/
def delInit (p : Nat) (s : State) : State :=
  { s with readyqueue := s.readyqueue.erase p,
           waitq := fun r => (s.waitq r).erase p }

/-- The shared wake-up tail of every release callback: unlink the chosen
waiter, set it `PROCESS_READY`, append it to the ready-queue tail. -/
def wake (w : Nat) (s : State) : State :=
  addTailReady w (setStatus (delInit w s) w PStatus.READY)

/-- Result of a release callback: `ok` on normal return, `fatal` when an
`assert` fails or a NULL pointer is dereferenced; `fatal` carries the state
at the moment of the abort. -/
inductive RRes where
  | ok : State → RRes
  | fatal : State → RRes

/-- `true` iff the release returned normally. -/
def RRes.isOk : RRes → Bool
  | .ok _ => true
  | .fatal _ => false

/-- The `list_for_each_entry` selection loop shared by the pickers in
`pa2.c`: `next` starts at the queue head (`if (!next) next = p;`) and is
replaced by `p` whenever `b p next` holds. -/
def pickFrom (b : Nat → Nat → Bool) : Nat → List Nat → Nat
  | w, [] => w
  | w, p :: q => pickFrom b (if b p w then p else w) q

/-- Selection over a possibly empty queue (`next` stays `NULL` on an empty
queue). -/
def pickBy (b : Nat → Nat → Bool) : List Nat → Option Nat
  | [] => none
  | p :: q => some (pickFrom b p q)

/-- Replace the running best by `p` when `p` has strictly larger measure:
`if (f(p) > f(next)) next = p;`. -/
def maxBy (f : Nat → Nat) : Nat → Nat → Bool := fun p w => decide (f w < f p)

/-- Replace the running best by `p` when `p` has strictly smaller measure:
`if (f(p) < f(next)) next = p;`. -/
def minBy (f : Nat → Nat) : Nat → Nat → Bool := fun p w => decide (f p < f w)

/-- One update of the running best of a selection loop:
`if (!next) next = p; else if (b(p, next)) next = p;`. -/
def selStep (b : Nat → Nat → Bool) (acc : Option Nat) (p : Nat) : Option Nat :=
  match acc with
  | none => some p
  | some w => if b p w then some p else acc

/-- `p->prio` as a selection measure. -/
def prioOf (s : State) (p : Nat) : Nat := (s.procs p).prio

/-- `p->lifespan - p->age`, the remaining time used by STCF. -/
def remOf (s : State) (p : Nat) : Nat := (s.procs p).lifespan - (s.procs p).age

/-! ## Acquire callbacks -/

/-- `fcfs_acquire` (pa2.c:61): grant if the resource is free, otherwise block
the current process and append it to the wait-queue tail. -/
def fcfs_acquire (rid : Nat) (s : State) : Option (Bool × State) :=
  match s.owner rid with
  | none => some (true, setOwner s rid s.current)
  | some _ =>
    match s.current with
    | none => none
    | some c => some (false, addTailWait rid c (setStatus s c PStatus.BLOCKED))

/-- `prio_acquire` (pa2.c:336): grant if free; otherwise `list_del_init` the
current process, append it to the wait-queue tail and block it. -/
def prio_acquire (rid : Nat) (s : State) : Option (Bool × State) :=
  match s.owner rid with
  | none => some (true, setOwner s rid s.current)
  | some _ =>
    match s.current with
    | none => none
    | some c =>
      some (false, setStatus (addTailWait rid c (delInit c s)) c PStatus.BLOCKED)

/-- `pa_acquire` (pa2.c:440): grant if free; if held and the requester's
priority is strictly below the owner's, the requester blocks; otherwise the
owner is blocked and appended to the wait queue (without being unlinked from
wherever it currently is) and the requester takes ownership. -/
def pa_acquire (rid : Nat) (s : State) : Option (Bool × State) :=
  match s.owner rid with
  | none => some (true, setOwner s rid s.current)
  | some o =>
    match s.current with
    | none => none
    | some c =>
      if (s.procs c).prio < (s.procs o).prio then
        some (false, addTailWait rid c (setStatus s c PStatus.BLOCKED))
      else
        some (true, setOwner (addTailWait rid o (setStatus s o PStatus.BLOCKED)) rid (some c))

/-- `pcp_acquire` (pa2.c:563): grant if free and raise the new owner's
priority to `PRIO_MAX` (dereferencing `r->owner`, hence crashing when
`current` is NULL); otherwise unlink, block and enqueue the requester. -/
def pcp_acquire (PRIO_MAX : Nat) (rid : Nat) (s : State) : Option (Bool × State) :=
  match s.owner rid with
  | none =>
    match s.current with
    | none => none
    | some c => some (true, setPrio (setOwner s rid (some c)) c PRIO_MAX)
  | some _ =>
    match s.current with
    | none => none
    | some c =>
      some (false, addTailWait rid c (setStatus (delInit c s) c PStatus.BLOCKED))

/-- `pip_acquire` (pa2.c:668): grant if free; otherwise boost the owner's
priority to the requester's when the requester's is strictly greater, then
unlink, block and enqueue the requester. -/
def pip_acquire (rid : Nat) (s : State) : Option (Bool × State) :=
  match s.owner rid with
  | none => some (true, setOwner s rid s.current)
  | some o =>
    match s.current with
    | none => none
    | some c =>
      let s1 := if (s.procs o).prio < (s.procs c).prio
                then setPrio s o (s.procs c).prio else s
      some (false, addTailWait rid c (setStatus (delInit c s1) c PStatus.BLOCKED))

/-! ## Release callbacks -/

/-- `fcfs_release` (pa2.c:95): assert the caller owns the resource, clear
ownership, then wake the wait-queue head (asserting it is BLOCKED). -/
def fcfs_release (rid : Nat) (s : State) : RRes :=
  if s.owner rid = s.current then
    let s1 := clearOwner rid s
    match s1.waitq rid with
    | [] => RRes.ok s1
    | w :: _ =>
      if (s1.procs w).status = PStatus.BLOCKED then RRes.ok (wake w s1)
      else RRes.fatal s1
  else RRes.fatal s

/-- `prio_release` (pa2.c:350): assert ownership, clear it, then wake the
maximum-priority waiter of the resource's wait queue (first maximum wins). -/
def prio_release (rid : Nat) (s : State) : RRes :=
  if s.owner rid = s.current then
    let s1 := clearOwner rid s
    match pickBy (maxBy (prioOf s1)) (s1.waitq rid) with
    | none => RRes.ok s1
    | some w =>
      if (s1.procs w).status = PStatus.BLOCKED then RRes.ok (wake w s1)
      else RRes.fatal s1
  else RRes.fatal s

/-- `pa_release` (pa2.c:460): assert ownership and clear it; when the wait
queue is non-empty the selection loop iterates over **`readyqueue`** (not the
wait queue), so the chosen "waiter" comes from the ready queue — with an
empty ready queue the NULL `waiter` is dereferenced. -/
def pa_release (rid : Nat) (s : State) : RRes :=
  if s.owner rid = s.current then
    let s1 := clearOwner rid s
    match s1.waitq rid with
    | [] => RRes.ok s1
    | _ :: _ =>
      match pickBy (maxBy (prioOf s1)) s1.readyqueue with
      | none => RRes.fatal s1
      | some w =>
        if (s1.procs w).status = PStatus.BLOCKED then RRes.ok (wake w s1)
        else RRes.fatal s1
  else RRes.fatal s

/-- `pcp_release` (pa2.c:579): restore `r->owner->prio` to its baseline
**before** the ownership assert (crashing when there is no owner), then clear
ownership and wake the maximum-priority waiter of the wait queue. -/
def pcp_release (rid : Nat) (s : State) : RRes :=
  match s.owner rid with
  | none => RRes.fatal s
  | some o =>
    let s1 := setPrio s o (s.procs o).prio_orig
    if s1.owner rid = s1.current then
      let s2 := clearOwner rid s1
      match pickBy (maxBy (prioOf s2)) (s2.waitq rid) with
      | none => RRes.ok s2
      | some w =>
        if (s2.procs w).status = PStatus.BLOCKED then RRes.ok (wake w s2)
        else RRes.fatal s2
    else RRes.fatal s1

/-- `pip_release` (pa2.c:683): assert ownership first, then restore the
owner's priority to its baseline, clear ownership and wake the
maximum-priority waiter of the wait queue. -/
def pip_release (rid : Nat) (s : State) : RRes :=
  if s.owner rid = s.current then
    match s.owner rid with
    | none => RRes.fatal s
    | some o =>
      let s1 := clearOwner rid (setPrio s o (s.procs o).prio_orig)
      match pickBy (maxBy (prioOf s1)) (s1.waitq rid) with
      | none => RRes.ok s1
      | some w =>
        if (s1.procs w).status = PStatus.BLOCKED then RRes.ok (wake w s1)
        else RRes.fatal s1
  else RRes.fatal s

/-! ## Schedule callbacks

Each schedule callback returns `Option (Option Nat × State)`: the outer
`Option` is `none` when the C code dereferences the NULL `current` pointer
(undefined behaviour); the inner `Option Nat` is the returned process
(`NULL` = no process to run). -/

/-- `list_first_entry` + `list_del_init` on the ready queue, guarded by
`list_empty`; returns `NULL` when the queue is empty. -/
def pickHead (s : State) : Option Nat × State :=
  match s.readyqueue with
  | [] => (none, s)
  | n :: _ => (some n, delInit n s)

/-- `fcfs_schedule` (pa2.c:144): continue an unfinished, unblocked current,
otherwise detach and return the ready-queue head. -/
def fcfs_schedule (s : State) : Option (Option Nat × State) :=
  match s.current with
  | none => some (pickHead s)
  | some c =>
    if (s.procs c).status = PStatus.BLOCKED then some (pickHead s)
    else if (s.procs c).age < (s.procs c).lifespan then some (some c, s)
    else some (pickHead s)

/-- Detach-and-return of a scanned pick (`list_del_init(&next->list)` after
the selection loop); `NULL` when the queue was empty. -/
def pickScan (b : Nat → Nat → Bool) (s : State) : Option Nat × State :=
  match pickBy b s.readyqueue with
  | none => (none, s)
  | some w => (some w, delInit w s)

/-- `sjf_schedule` (pa2.c:200): like FCFS but the new process is the
minimum-`lifespan` entry of the ready queue (first minimum wins). -/
def sjf_schedule (s : State) : Option (Option Nat × State) :=
  match s.current with
  | none => some (pickScan (minBy (fun p => (s.procs p).lifespan)) s)
  | some c =>
    if (s.procs c).status = PStatus.BLOCKED then
      some (pickScan (minBy (fun p => (s.procs p).lifespan)) s)
    else if (s.procs c).age < (s.procs c).lifespan then some (some c, s)
    else some (pickScan (minBy (fun p => (s.procs p).lifespan)) s)

/-- `stcf_schedule` (pa2.c:248): scan the ready queue for the minimum
remaining time; an unfinished current keeps the CPU only when its remaining
time is strictly smaller, otherwise it is appended to the ready-queue tail.
On an empty ready queue `current->age` is dereferenced unconditionally. -/
def stcf_schedule (s : State) : Option (Option Nat × State) :=
  match s.readyqueue with
  | [] =>
    match s.current with
    | none => none
    | some c =>
      if (s.procs c).age < (s.procs c).lifespan then some (some c, s)
      else some (none, s)
  | _ :: _ =>
    match pickBy (minBy (remOf s)) s.readyqueue with
    | none => none
    | some cand =>
      match s.current with
      | none => some (some cand, delInit cand s)
      | some c =>
        if (s.procs c).lifespan ≠ (s.procs c).age then
          if remOf s c < remOf s cand then
            some (some c, delInit c s)
          else
            some (some cand, delInit cand (addTailReady c s))
        else
          some (some cand, delInit cand s)

/-- `rr_schedule` (pa2.c:300): always dequeue the ready-queue head when one
exists, re-appending an unfinished current to the tail; with an empty ready
queue `current->age` is dereferenced unconditionally. -/
def rr_schedule (s : State) : Option (Option Nat × State) :=
  match s.readyqueue with
  | [] =>
    match s.current with
    | none => none
    | some c =>
      if (s.procs c).age < (s.procs c).lifespan then some (some c, s)
      else some (none, s)
  | n :: _ =>
    let s1 := delInit n s
    match s.current with
    | none => some (some n, s1)
    | some c =>
      if (s.procs c).lifespan ≠ (s.procs c).age then some (some n, addTailReady c s1)
      else some (some n, s1)

/-- The selection predicate of `prio_schedule`: replace `next` by `p` when
`p->prio > next->prio && p->status == PROCESS_READY`. -/
def prioReadyGT (s : State) (p w : Nat) : Bool :=
  decide ((s.procs w).prio < (s.procs p).prio) && decide ((s.procs p).status = PStatus.READY)

/-- `prio_schedule` (pa2.c:379): max-priority scan of the ready queue; an
unfinished, unblocked current keeps the CPU when it strictly outranks the
pick, else it is re-appended; with an empty ready queue `current->age` is
dereferenced unconditionally. -/
def prio_schedule (s : State) : Option (Option Nat × State) :=
  match s.readyqueue with
  | [] =>
    match s.current with
    | none => none
    | some c =>
      if (s.procs c).age < (s.procs c).lifespan then some (some c, s)
      else some (none, s)
  | _ :: _ =>
    match pickBy (prioReadyGT s) s.readyqueue with
    | none => none
    | some nxt =>
      match s.current with
      | none => some (some nxt, delInit nxt s)
      | some c =>
        if (s.procs c).age = (s.procs c).lifespan then some (some nxt, delInit nxt s)
        else if (s.procs c).status ≠ PStatus.BLOCKED then
          if (s.procs nxt).prio < (s.procs c).prio then some (some c, s)
          else if (s.procs c).age ≠ (s.procs c).lifespan then
            some (some nxt, delInit nxt (addTailReady c s))
          else some (some nxt, delInit nxt s)
        else some (some nxt, delInit nxt s)

/-- One iteration body of the aging loop of `pa_schedule`:
`if (p->prio < PRIO_MAX) p->prio++;`. -/
def bump (PRIO_MAX : Nat) (s : State) (p : Nat) : State :=
  if (s.procs p).prio < PRIO_MAX then setPrio s p ((s.procs p).prio + 1) else s

/-- The combined aging-and-selection loop of `pa_schedule` (pa2.c:501):
each ready process is aged first, then compared (by the already-aged
priorities) against the running best. -/
def pa_scan (PRIO_MAX : Nat) : State → Option Nat → List Nat → State × Option Nat
  | s, next, [] => (s, next)
  | s, next, p :: q =>
    pa_scan PRIO_MAX (bump PRIO_MAX s p)
      (selStep (maxBy (prioOf (bump PRIO_MAX s p))) next p) q

/-- `pa_schedule` (pa2.c:491): with no current or a blocked current, plain
max-priority pick; otherwise, when the ready queue is non-empty, reset the
current's priority to its baseline, age every ready process, and let the
current keep the CPU only when the aged pick's priority is strictly below
the baseline. -/
def pa_schedule (PRIO_MAX : Nat) (s : State) : Option (Option Nat × State) :=
  match s.current with
  | none => some (pickScan (maxBy (prioOf s)) s)
  | some c =>
    if (s.procs c).status = PStatus.BLOCKED then some (pickScan (maxBy (prioOf s)) s)
    else
      match s.readyqueue with
      | [] =>
        if (s.procs c).age < (s.procs c).lifespan then some (some c, s)
        else some (none, s)
      | _ :: _ =>
        let s1 := setPrio s c (s.procs c).prio_orig
        match pa_scan PRIO_MAX s1 none s1.readyqueue with
        | (_, none) => none
        | (s2, some nxt) =>
          if (s2.procs c).age < (s2.procs c).lifespan then
            if (s2.procs nxt).prio < (s2.procs c).prio then some (some c, s2)
            else some (some nxt, delInit nxt (addTailReady c s2))
          else some (some nxt, delInit nxt s2)

/-- `pcp_schedule` (pa2.c:612): max-priority scan; an unfinished current is
preempted when `current->prio <= next->prio` (re-appended only if not
blocked) and keeps the CPU otherwise, even when blocked; with an empty ready
queue `current->age` is dereferenced unconditionally. -/
def pcp_schedule (s : State) : Option (Option Nat × State) :=
  match s.readyqueue with
  | [] =>
    match s.current with
    | none => none
    | some c =>
      if (s.procs c).age < (s.procs c).lifespan then some (some c, s)
      else some (none, s)
  | _ :: _ =>
    match pickBy (maxBy (prioOf s)) s.readyqueue with
    | none => none
    | some nxt =>
      match s.current with
      | none => some (some nxt, delInit nxt s)
      | some c =>
        if (s.procs c).age < (s.procs c).lifespan then
          if (s.procs c).prio ≤ (s.procs nxt).prio then
            if (s.procs c).status ≠ PStatus.BLOCKED then
              some (some nxt, delInit nxt (addTailReady c s))
            else some (some nxt, delInit nxt s)
          else some (some c, s)
        else some (some nxt, delInit nxt s)

/-- `pip_schedule` (pa2.c:717): like `pcp_schedule`, but a current that
outranks the pick yields anyway when it is blocked. -/
def pip_schedule (s : State) : Option (Option Nat × State) :=
  match s.readyqueue with
  | [] =>
    match s.current with
    | none => none
    | some c =>
      if (s.procs c).age < (s.procs c).lifespan then some (some c, s)
      else some (none, s)
  | _ :: _ =>
    match pickBy (maxBy (prioOf s)) s.readyqueue with
    | none => none
    | some nxt =>
      match s.current with
      | none => some (some nxt, delInit nxt s)
      | some c =>
        if (s.procs c).age < (s.procs c).lifespan then
          if (s.procs c).prio ≤ (s.procs nxt).prio then
            if (s.procs c).status ≠ PStatus.BLOCKED then
              some (some nxt, delInit nxt (addTailReady c s))
            else some (some nxt, delInit nxt s)
          else
            if (s.procs c).status = PStatus.BLOCKED then some (some nxt, delInit nxt s)
            else some (some c, s)
        else some (some nxt, delInit nxt s)

/-! ## Invariant-style predicates used by the claims -/

/-- The process still has remaining lifetime (`age < lifespan`). -/
def liveIn (s : State) (p : Nat) : Prop := (s.procs p).age < (s.procs p).lifespan

/-- Every process sitting in the ready queue or in some wait queue is
unfinished. -/
def QueuesLive (s : State) : Prop :=
  (∀ p ∈ s.readyqueue, liveIn s p) ∧ ∀ r, ∀ p ∈ s.waitq r, liveIn s p

/-- Every process satisfies `age ≤ lifespan`. -/
def AgesOk (s : State) : Prop := ∀ p, (s.procs p).age ≤ (s.procs p).lifespan

/-- What the no-finished-process claim asserts of a schedule result: if the
call is defined, the returned process (when there is one) is unfinished, and
both queue conditions still hold afterwards. -/
def SchedOK : Option (Option Nat × State) → Prop
  | none => True
  | some (r, s') => (∀ c, r = some c → liveIn s' c) ∧ QueuesLive s' ∧ AgesOk s'

/-- What the no-finished-process claim asserts of an acquire result. -/
def AcqOK : Option (Bool × State) → Prop
  | none => True
  | some (_, s') => QueuesLive s' ∧ AgesOk s'

/-- What the no-finished-process claim asserts of a release result (a fatal
abort terminates the run). -/
def RelOK : RRes → Prop
  | .fatal _ => True
  | .ok s' => QueuesLive s' ∧ AgesOk s'

/-- The capped increment applied by the aging loop to a ready process's
priority. -/
def aged (PRIO_MAX v : Nat) : Nat := if v < PRIO_MAX then v + 1 else v

/-- The capped increment on a whole process record. -/
def agedP (PRIO_MAX : Nat) (pr : Process) : Process :=
  if pr.prio < PRIO_MAX then { pr with prio := pr.prio + 1 } else pr

/-- Selection loop in accumulator form, to relate `pa_scan`'s interleaved
selection to a plain post-aging scan. -/
def pickAcc (b : Nat → Nat → Bool) : Option Nat → List Nat → Option Nat
  | acc, [] => acc
  | acc, p :: q => pickAcc b (selStep b acc p) q

/-- Pointwise agreement of the driver-owned fields (`age`, `lifespan`) of
every process record; all policy callbacks preserve them. -/
def coreEq (s s' : State) : Prop :=
  ∀ x, (s'.procs x).age = (s.procs x).age
    ∧ (s'.procs x).lifespan = (s.procs x).lifespan

/-! ## Concrete states used to settle individual claims -/

/-- Resource 0 owned by the running process 0, with process 1 blocked in its
wait queue and process 2 ready; exercises the release callbacks. -/
def exC1 : State where
  current := some 0
  readyqueue := [2]
  procs := fun p =>
    if p = 0 then ⟨5, 1, 3, 3, PStatus.RUNNING⟩
    else if p = 1 then ⟨5, 0, 2, 2, PStatus.BLOCKED⟩
    else ⟨5, 0, 1, 1, PStatus.READY⟩
  owner := fun r => if r = 0 then some 0 else none
  waitq := fun r => if r = 0 then [1] else []

/-- Like `exC1` but with an empty ready queue. -/
def exC1b : State where
  current := some 0
  readyqueue := []
  procs := fun p =>
    if p = 0 then ⟨5, 1, 3, 3, PStatus.RUNNING⟩
    else if p = 1 then ⟨5, 0, 2, 2, PStatus.BLOCKED⟩
    else ⟨5, 0, 1, 1, PStatus.READY⟩
  owner := fun r => if r = 0 then some 0 else none
  waitq := fun r => if r = 0 then [1] else []

/-- A running process 0 and one ready process 1 with equal remaining time
(two ticks each); exercises the STCF tie. -/
def exC2 : State where
  current := some 0
  readyqueue := [1]
  procs := fun p =>
    if p = 0 then ⟨5, 3, 0, 0, PStatus.RUNNING⟩
    else ⟨2, 0, 0, 0, PStatus.READY⟩
  owner := fun _ => none
  waitq := fun _ => []

/-- A running process 0 with strictly smaller remaining time (one tick) than
the sole ready process 1 (four ticks). -/
def exC2w : State where
  current := some 0
  readyqueue := [1]
  procs := fun p =>
    if p = 0 then ⟨5, 4, 0, 0, PStatus.RUNNING⟩
    else ⟨5, 1, 0, 0, PStatus.READY⟩
  owner := fun _ => none
  waitq := fun _ => []

/-- Process 1 owns resource 0 but was preempted (it sits READY in the ready
queue); the running process 2 outranks it and requests the resource. -/
def exC3 : State where
  current := some 2
  readyqueue := [1]
  procs := fun p =>
    if p = 1 then ⟨5, 1, 2, 2, PStatus.READY⟩
    else if p = 2 then ⟨5, 1, 5, 5, PStatus.RUNNING⟩
    else ⟨5, 0, 1, 1, PStatus.READY⟩
  owner := fun r => if r = 0 then some 1 else none
  waitq := fun _ => []

/-- The state produced by `pa_acquire 0 exC3`. -/
def exC3out : State := setOwner (addTailWait 0 1 (setStatus exC3 1 PStatus.BLOCKED)) 0 (some 2)

/-- The current process 0 just blocked on resource 0 (owned by process 2)
and sits in its wait queue with two ticks remaining; ready process 1 has
eight ticks remaining. -/
def exC4 : State where
  current := some 0
  readyqueue := [1]
  procs := fun p =>
    if p = 0 then ⟨5, 3, 1, 1, PStatus.BLOCKED⟩
    else if p = 1 then ⟨9, 1, 1, 1, PStatus.READY⟩
    else ⟨7, 2, 1, 1, PStatus.RUNNING⟩
  owner := fun r => if r = 0 then some 2 else none
  waitq := fun r => if r = 0 then [0] else []

/-- A running process 0 whose priority (5) was boosted above its baseline
(3), with an empty ready queue. -/
def exC5 : State where
  current := some 0
  readyqueue := []
  procs := fun _ => ⟨5, 1, 5, 3, PStatus.RUNNING⟩
  owner := fun _ => none
  waitq := fun _ => []

/-- A running process 0 (boosted priority 5, baseline 3) with two ready
processes of priorities 1 and 4. -/
def exC5w : State where
  current := some 0
  readyqueue := [1, 2]
  procs := fun p =>
    if p = 0 then ⟨5, 1, 5, 3, PStatus.RUNNING⟩
    else if p = 1 then ⟨5, 1, 1, 1, PStatus.READY⟩
    else ⟨5, 1, 4, 4, PStatus.READY⟩
  owner := fun _ => none
  waitq := fun _ => []

/-- A running process 1 and a free resource 0; exercises the PCP grant. -/
def exC6a : State where
  current := some 1
  readyqueue := []
  procs := fun _ => ⟨5, 1, 2, 2, PStatus.RUNNING⟩
  owner := fun _ => none
  waitq := fun _ => []

/-- The running process 0 owns resource 0 at ceiling priority 9 (baseline
2); processes 1 (priority 3) and 2 (priority 7) are blocked in its wait
queue. -/
def exC6r : State where
  current := some 0
  readyqueue := []
  procs := fun p =>
    if p = 0 then ⟨5, 1, 9, 2, PStatus.RUNNING⟩
    else if p = 1 then ⟨5, 0, 3, 3, PStatus.BLOCKED⟩
    else ⟨5, 0, 7, 7, PStatus.BLOCKED⟩
  owner := fun r => if r = 0 then some 0 else none
  waitq := fun r => if r = 0 then [1, 2] else []

/-- Process 1 (priority 2) owns resource 0; the running process 2
(priority 6) requests it. -/
def exC7w : State where
  current := some 2
  readyqueue := []
  procs := fun p =>
    if p = 1 then ⟨5, 1, 2, 2, PStatus.RUNNING⟩
    else if p = 2 then ⟨5, 1, 6, 6, PStatus.RUNNING⟩
    else ⟨5, 0, 1, 1, PStatus.READY⟩
  owner := fun r => if r = 0 then some 1 else none
  waitq := fun _ => []

/-- A uniform state (every process record identical and unfinished) with a
current process, one ready process and one waiter per resource. -/
def exC8w : State where
  current := some 0
  readyqueue := [1]
  procs := fun _ => ⟨2, 1, 1, 1, PStatus.READY⟩
  owner := fun _ => some 3
  waitq := fun _ => [2]

/-- No current process and an empty ready queue. -/
def exC9e : State where
  current := none
  readyqueue := []
  procs := fun _ => ⟨5, 1, 1, 1, PStatus.READY⟩
  owner := fun _ => none
  waitq := fun _ => []

/-- An unfinished running process 0 and an empty ready queue. -/
def exC9s : State where
  current := some 0
  readyqueue := []
  procs := fun _ => ⟨5, 1, 1, 1, PStatus.RUNNING⟩
  owner := fun _ => none
  waitq := fun _ => []

/-- Resource 0 is owned by process 1 (priority 7, baseline 2) while the
running process is 0: the releases hit their failed owner check. -/
def exC10 : State where
  current := some 0
  readyqueue := []
  procs := fun p =>
    if p = 0 then ⟨5, 1, 4, 4, PStatus.RUNNING⟩
    else ⟨5, 1, 7, 2, PStatus.READY⟩
  owner := fun r => if r = 0 then some 1 else none
  waitq := fun _ => []

/-! ## Basic lemmas about the state helpers -/

@[simp] lemma setP_current (s : State) (p : Nat) (f : Process → Process) :
    (setP s p f).current = s.current := rfl

@[simp] lemma setP_readyqueue (s : State) (p : Nat) (f : Process → Process) :
    (setP s p f).readyqueue = s.readyqueue := rfl

@[simp] lemma setP_owner (s : State) (p : Nat) (f : Process → Process) :
    (setP s p f).owner = s.owner := rfl

@[simp] lemma setP_waitq (s : State) (p : Nat) (f : Process → Process) :
    (setP s p f).waitq = s.waitq := rfl

lemma setP_procs (s : State) (p : Nat) (f : Process → Process) (x : Nat) :
    (setP s p f).procs x = if x = p then f (s.procs x) else s.procs x := rfl

@[simp] lemma setStatus_current (s : State) (p : Nat) (st : PStatus) :
    (setStatus s p st).current = s.current := rfl

@[simp] lemma setStatus_readyqueue (s : State) (p : Nat) (st : PStatus) :
    (setStatus s p st).readyqueue = s.readyqueue := rfl

@[simp] lemma setStatus_owner (s : State) (p : Nat) (st : PStatus) :
    (setStatus s p st).owner = s.owner := rfl

@[simp] lemma setStatus_waitq (s : State) (p : Nat) (st : PStatus) :
    (setStatus s p st).waitq = s.waitq := rfl

lemma setStatus_procs (s : State) (p : Nat) (st : PStatus) (x : Nat) :
    (setStatus s p st).procs x
      = if x = p then { s.procs x with status := st } else s.procs x := rfl

@[simp] lemma setStatus_age (s : State) (p : Nat) (st : PStatus) (x : Nat) :
    ((setStatus s p st).procs x).age = (s.procs x).age := by
  rw [setStatus_procs]; split <;> rfl

@[simp] lemma setStatus_lifespan (s : State) (p : Nat) (st : PStatus) (x : Nat) :
    ((setStatus s p st).procs x).lifespan = (s.procs x).lifespan := by
  rw [setStatus_procs]; split <;> rfl

@[simp] lemma setStatus_prio (s : State) (p : Nat) (st : PStatus) (x : Nat) :
    ((setStatus s p st).procs x).prio = (s.procs x).prio := by
  rw [setStatus_procs]; split <;> rfl

@[simp] lemma setStatus_prio_orig (s : State) (p : Nat) (st : PStatus) (x : Nat) :
    ((setStatus s p st).procs x).prio_orig = (s.procs x).prio_orig := by
  rw [setStatus_procs]; split <;> rfl

lemma setStatus_status (s : State) (p : Nat) (st : PStatus) (x : Nat) :
    ((setStatus s p st).procs x).status
      = if x = p then st else (s.procs x).status := by
  rw [setStatus_procs]; split <;> rfl

@[simp] lemma setPrio_current (s : State) (p v : Nat) :
    (setPrio s p v).current = s.current := rfl

@[simp] lemma setPrio_readyqueue (s : State) (p v : Nat) :
    (setPrio s p v).readyqueue = s.readyqueue := rfl

@[simp] lemma setPrio_owner (s : State) (p v : Nat) :
    (setPrio s p v).owner = s.owner := rfl

@[simp] lemma setPrio_waitq (s : State) (p v : Nat) :
    (setPrio s p v).waitq = s.waitq := rfl

lemma setPrio_procs (s : State) (p v x : Nat) :
    (setPrio s p v).procs x
      = if x = p then { s.procs x with prio := v } else s.procs x := rfl

@[simp] lemma setPrio_age (s : State) (p v x : Nat) :
    ((setPrio s p v).procs x).age = (s.procs x).age := by
  rw [setPrio_procs]; split <;> rfl

@[simp] lemma setPrio_lifespan (s : State) (p v x : Nat) :
    ((setPrio s p v).procs x).lifespan = (s.procs x).lifespan := by
  rw [setPrio_procs]; split <;> rfl

@[simp] lemma setPrio_status (s : State) (p v x : Nat) :
    ((setPrio s p v).procs x).status = (s.procs x).status := by
  rw [setPrio_procs]; split <;> rfl

@[simp] lemma setPrio_prio_orig (s : State) (p v x : Nat) :
    ((setPrio s p v).procs x).prio_orig = (s.procs x).prio_orig := by
  rw [setPrio_procs]; split <;> rfl

lemma setPrio_prio (s : State) (p v x : Nat) :
    ((setPrio s p v).procs x).prio = if x = p then v else (s.procs x).prio := by
  rw [setPrio_procs]; split <;> rfl

@[simp] lemma setOwner_current (s : State) (r : Nat) (o : Option Nat) :
    (setOwner s r o).current = s.current := rfl

@[simp] lemma setOwner_readyqueue (s : State) (r : Nat) (o : Option Nat) :
    (setOwner s r o).readyqueue = s.readyqueue := rfl

@[simp] lemma setOwner_procs (s : State) (r : Nat) (o : Option Nat) :
    (setOwner s r o).procs = s.procs := rfl

@[simp] lemma setOwner_waitq (s : State) (r : Nat) (o : Option Nat) :
    (setOwner s r o).waitq = s.waitq := rfl

lemma setOwner_owner (s : State) (r : Nat) (o : Option Nat) (k : Nat) :
    (setOwner s r o).owner k = if k = r then o else s.owner k := rfl

@[simp] lemma clearOwner_current (r : Nat) (s : State) :
    (clearOwner r s).current = s.current := rfl

@[simp] lemma clearOwner_readyqueue (r : Nat) (s : State) :
    (clearOwner r s).readyqueue = s.readyqueue := rfl

@[simp] lemma clearOwner_procs (r : Nat) (s : State) :
    (clearOwner r s).procs = s.procs := rfl

@[simp] lemma clearOwner_waitq (r : Nat) (s : State) :
    (clearOwner r s).waitq = s.waitq := rfl

@[simp] lemma addTailReady_current (p : Nat) (s : State) :
    (addTailReady p s).current = s.current := rfl

@[simp] lemma addTailReady_readyqueue (p : Nat) (s : State) :
    (addTailReady p s).readyqueue = s.readyqueue ++ [p] := rfl

@[simp] lemma addTailReady_procs (p : Nat) (s : State) :
    (addTailReady p s).procs = s.procs := rfl

@[simp] lemma addTailReady_owner (p : Nat) (s : State) :
    (addTailReady p s).owner = s.owner := rfl

@[simp] lemma addTailReady_waitq (p : Nat) (s : State) :
    (addTailReady p s).waitq = s.waitq := rfl

@[simp] lemma addTailWait_current (r p : Nat) (s : State) :
    (addTailWait r p s).current = s.current := rfl

@[simp] lemma addTailWait_readyqueue (r p : Nat) (s : State) :
    (addTailWait r p s).readyqueue = s.readyqueue := rfl

@[simp] lemma addTailWait_procs (r p : Nat) (s : State) :
    (addTailWait r p s).procs = s.procs := rfl

@[simp] lemma addTailWait_owner (r p : Nat) (s : State) :
    (addTailWait r p s).owner = s.owner := rfl

lemma addTailWait_waitq (r p : Nat) (s : State) (k : Nat) :
    (addTailWait r p s).waitq k
      = if k = r then s.waitq k ++ [p] else s.waitq k := rfl

@[simp] lemma delInit_current (p : Nat) (s : State) :
    (delInit p s).current = s.current := rfl

@[simp] lemma delInit_readyqueue (p : Nat) (s : State) :
    (delInit p s).readyqueue = s.readyqueue.erase p := rfl

@[simp] lemma delInit_procs (p : Nat) (s : State) :
    (delInit p s).procs = s.procs := rfl

@[simp] lemma delInit_owner (p : Nat) (s : State) :
    (delInit p s).owner = s.owner := rfl

@[simp] lemma delInit_waitq (p : Nat) (s : State) (r : Nat) :
    (delInit p s).waitq r = (s.waitq r).erase p := rfl

/-- `list_del_init` is a no-op on a process that is in no queue. -/
lemma delInit_of_not_mem (s : State) (p : Nat) (h1 : p ∉ s.readyqueue)
    (h2 : ∀ r, p ∉ s.waitq r) : delInit p s = s := by
  cases s with
  | mk cur rq pr ow wq =>
    show State.mk cur (rq.erase p) pr ow (fun r => (wq r).erase p)
        = State.mk cur rq pr ow wq
    rw [List.erase_of_not_mem h1]
    congr 1
    funext r
    exact List.erase_of_not_mem (h2 r)

lemma wake_current (w : Nat) (s : State) : (wake w s).current = s.current := rfl

lemma wake_owner (w : Nat) (s : State) : (wake w s).owner = s.owner := rfl

lemma wake_readyqueue (w : Nat) (s : State) :
    (wake w s).readyqueue = s.readyqueue.erase w ++ [w] := rfl

lemma wake_waitq (w : Nat) (s : State) (r : Nat) :
    (wake w s).waitq r = (s.waitq r).erase w := rfl

lemma wake_procs (w : Nat) (s : State) (x : Nat) :
    (wake w s).procs x
      = if x = w then { s.procs x with status := PStatus.READY } else s.procs x := rfl

/-! ## Lemmas about the selection loops -/

lemma pickFrom_eq_or_mem (b : Nat → Nat → Bool) (w : Nat) (q : List Nat) :
    pickFrom b w q = w ∨ pickFrom b w q ∈ q := by
  induction q generalizing w with
  | nil => exact Or.inl rfl
  | cons p t ih =>
    have hrec : pickFrom b w (p :: t) = pickFrom b (if b p w then p else w) t := rfl
    rw [hrec]
    rcases ih (if b p w then p else w) with h | h
    · rw [h]
      by_cases hb : b p w
      · rw [if_pos hb]; exact Or.inr (List.mem_cons_self p t)
      · rw [if_neg hb]; exact Or.inl rfl
    · exact Or.inr (List.mem_cons_of_mem p h)

lemma pickBy_mem {b : Nat → Nat → Bool} {q : List Nat} {w : Nat}
    (h : pickBy b q = some w) : w ∈ q := by
  cases q with
  | nil => simp [pickBy] at h
  | cons p t =>
    have hw : pickFrom b p t = w := by
      have := h
      simp [pickBy] at this
      exact this
    rcases pickFrom_eq_or_mem b p t with h1 | h1
    · rw [← hw, h1]; exact List.mem_cons_self p t
    · rw [← hw]; exact List.mem_cons_of_mem p h1

lemma pickBy_cons (b : Nat → Nat → Bool) (p : Nat) (t : List Nat) :
    pickBy b (p :: t) = some (pickFrom b p t) := rfl

lemma pickBy_ne_nil {b : Nat → Nat → Bool} {q : List Nat} (h : q ≠ []) :
    (pickBy b q).isSome := by
  cases q with
  | nil => exact absurd rfl h
  | cons p t => rfl

lemma pickFrom_maxBy (f : Nat → Nat) (w : Nat) (q : List Nat) :
    f w ≤ f (pickFrom (maxBy f) w q)
      ∧ ∀ p ∈ q, f p ≤ f (pickFrom (maxBy f) w q) := by
  induction q generalizing w with
  | nil => exact ⟨Nat.le_refl _, by intro p hp; cases hp⟩
  | cons p t ih =>
    show f w ≤ f (pickFrom (maxBy f) (if maxBy f p w then p else w) t) ∧ _
    have step : f w ≤ f (if maxBy f p w then p else w)
        ∧ f p ≤ f (if maxBy f p w then p else w) := by
      by_cases hb : f w < f p
      · simp [maxBy, hb]
        exact Nat.le_of_lt hb
      · simp [maxBy, hb]
        exact Nat.le_of_not_lt hb
    refine ⟨Nat.le_trans step.1 (ih _).1, ?_⟩
    intro x hx
    rcases List.mem_cons.mp hx with h | h
    · rw [h]; exact Nat.le_trans step.2 (ih _).1
    · exact (ih _).2 x h

lemma pickBy_maxBy {f : Nat → Nat} {q : List Nat} {w : Nat}
    (h : pickBy (maxBy f) q = some w) : ∀ p ∈ q, f p ≤ f w := by
  cases q with
  | nil => simp [pickBy] at h
  | cons p t =>
    have hw : pickFrom (maxBy f) p t = w := by
      have := h; simp [pickBy] at this; exact this
    intro x hx
    rcases List.mem_cons.mp hx with h1 | h1
    · rw [h1, ← hw]; exact (pickFrom_maxBy f p t).1
    · rw [← hw]; exact (pickFrom_maxBy f p t).2 x h1

lemma pickFrom_minBy (f : Nat → Nat) (w : Nat) (q : List Nat) :
    f (pickFrom (minBy f) w q) ≤ f w
      ∧ ∀ p ∈ q, f (pickFrom (minBy f) w q) ≤ f p := by
  induction q generalizing w with
  | nil => exact ⟨Nat.le_refl _, by intro p hp; cases hp⟩
  | cons p t ih =>
    show f (pickFrom (minBy f) (if minBy f p w then p else w) t) ≤ f w ∧ _
    have step : f (if minBy f p w then p else w) ≤ f w
        ∧ f (if minBy f p w then p else w) ≤ f p := by
      by_cases hb : f p < f w
      · simp [minBy, hb]
        exact Nat.le_of_lt hb
      · simp [minBy, hb]
        exact Nat.le_of_not_lt hb
    refine ⟨Nat.le_trans (ih _).1 step.1, ?_⟩
    intro x hx
    rcases List.mem_cons.mp hx with h | h
    · rw [h]; exact Nat.le_trans (ih _).1 step.2
    · exact (ih _).2 x h

lemma pickBy_minBy {f : Nat → Nat} {q : List Nat} {w : Nat}
    (h : pickBy (minBy f) q = some w) : ∀ p ∈ q, f w ≤ f p := by
  cases q with
  | nil => simp [pickBy] at h
  | cons p t =>
    have hw : pickFrom (minBy f) p t = w := by
      have := h; simp [pickBy] at this; exact this
    intro x hx
    rcases List.mem_cons.mp hx with h1 | h1
    · rw [h1, ← hw]; exact (pickFrom_minBy f p t).1
    · rw [← hw]; exact (pickFrom_minBy f p t).2 x h1

lemma pickAcc_some (b : Nat → Nat → Bool) (w : Nat) (q : List Nat) :
    pickAcc b (some w) q = some (pickFrom b w q) := by
  induction q generalizing w with
  | nil => rfl
  | cons p t ih =>
    have h1 : pickAcc b (some w) (p :: t)
        = pickAcc b (if b p w then some p else some w) t := rfl
    have h2 : pickFrom b w (p :: t) = pickFrom b (if b p w then p else w) t := rfl
    rw [h1, h2]
    by_cases hb : b p w
    · rw [if_pos hb, if_pos hb]; exact ih p
    · rw [if_neg hb, if_neg hb]; exact ih w

lemma pickAcc_none (b : Nat → Nat → Bool) (q : List Nat) :
    pickAcc b none q = pickBy b q := by
  cases q with
  | nil => rfl
  | cons p t =>
    show pickAcc b (some p) t = _
    rw [pickAcc_some, pickBy_cons]

/-! ## Lemmas about the aging loop of `pa_schedule` -/

lemma bump_procs (M : Nat) (s : State) (p x : Nat) :
    (bump M s p).procs x = if x = p then agedP M (s.procs x) else s.procs x := by
  unfold bump agedP
  by_cases h : (s.procs p).prio < M
  · rw [if_pos h, setPrio_procs]
    by_cases hx : x = p
    · subst hx; rw [if_pos rfl, if_pos rfl, if_pos h]
    · rw [if_neg hx, if_neg hx]
  · rw [if_neg h]
    by_cases hx : x = p
    · subst hx; rw [if_pos rfl, if_neg h]
    · rw [if_neg hx]

@[simp] lemma bump_current (M : Nat) (s : State) (p : Nat) :
    (bump M s p).current = s.current := by
  unfold bump; split <;> rfl

@[simp] lemma bump_readyqueue (M : Nat) (s : State) (p : Nat) :
    (bump M s p).readyqueue = s.readyqueue := by
  unfold bump; split <;> rfl

@[simp] lemma bump_owner (M : Nat) (s : State) (p : Nat) :
    (bump M s p).owner = s.owner := by
  unfold bump; split <;> rfl

@[simp] lemma bump_waitq (M : Nat) (s : State) (p : Nat) :
    (bump M s p).waitq = s.waitq := by
  unfold bump; split <;> rfl

@[simp] lemma agedP_age (M : Nat) (pr : Process) : (agedP M pr).age = pr.age := by
  unfold agedP; split <;> rfl

@[simp] lemma agedP_lifespan (M : Nat) (pr : Process) :
    (agedP M pr).lifespan = pr.lifespan := by
  unfold agedP; split <;> rfl

@[simp] lemma agedP_status (M : Nat) (pr : Process) :
    (agedP M pr).status = pr.status := by
  unfold agedP; split <;> rfl

@[simp] lemma agedP_prio_orig (M : Nat) (pr : Process) :
    (agedP M pr).prio_orig = pr.prio_orig := by
  unfold agedP; split <;> rfl

lemma agedP_prio (M : Nat) (pr : Process) : (agedP M pr).prio = aged M pr.prio := by
  unfold agedP aged; split <;> rfl


lemma pa_scan_cons (M : Nat) (s : State) (acc : Option Nat) (p : Nat) (t : List Nat) :
    pa_scan M s acc (p :: t)
      = pa_scan M (bump M s p) (selStep (maxBy (prioOf (bump M s p))) acc p) t := rfl

lemma pa_scan_current (M : Nat) (s : State) (acc : Option Nat) (q : List Nat) :
    (pa_scan M s acc q).1.current = s.current := by
  induction q generalizing s acc with
  | nil => rfl
  | cons p t ih => rw [pa_scan_cons, ih, bump_current]

lemma pa_scan_readyqueue (M : Nat) (s : State) (acc : Option Nat) (q : List Nat) :
    (pa_scan M s acc q).1.readyqueue = s.readyqueue := by
  induction q generalizing s acc with
  | nil => rfl
  | cons p t ih => rw [pa_scan_cons, ih, bump_readyqueue]

lemma pa_scan_owner (M : Nat) (s : State) (acc : Option Nat) (q : List Nat) :
    (pa_scan M s acc q).1.owner = s.owner := by
  induction q generalizing s acc with
  | nil => rfl
  | cons p t ih => rw [pa_scan_cons, ih, bump_owner]

lemma pa_scan_waitq (M : Nat) (s : State) (acc : Option Nat) (q : List Nat) :
    (pa_scan M s acc q).1.waitq = s.waitq := by
  induction q generalizing s acc with
  | nil => rfl
  | cons p t ih => rw [pa_scan_cons, ih, bump_waitq]

lemma pa_scan_procs_not_mem (M : Nat) (s : State) (acc : Option Nat) (q : List Nat)
    (x : Nat) (hx : x ∉ q) : (pa_scan M s acc q).1.procs x = s.procs x := by
  induction q generalizing s acc with
  | nil => rfl
  | cons p t ih =>
    rw [pa_scan_cons, ih _ _ (fun h => hx (List.mem_cons_of_mem p h)), bump_procs,
        if_neg (fun h : x = p => hx (h ▸ List.mem_cons_self x t))]

lemma pa_scan_procs_mem (M : Nat) (s : State) (acc : Option Nat) (q : List Nat)
    (hnd : q.Nodup) (x : Nat) (hx : x ∈ q) :
    (pa_scan M s acc q).1.procs x = agedP M (s.procs x) := by
  induction q generalizing s acc with
  | nil => cases hx
  | cons p t ih =>
    rcases List.mem_cons.mp hx with h | h
    · subst h
      rw [pa_scan_cons, pa_scan_procs_not_mem _ _ _ _ _ (List.Nodup.not_mem hnd),
          bump_procs, if_pos rfl]
    · rw [pa_scan_cons, ih _ _ (List.Nodup.of_cons hnd) h, bump_procs,
          if_neg (fun hxp : x = p => (List.Nodup.not_mem hnd) (hxp ▸ h))]

lemma pa_scan_age (M : Nat) (s : State) (acc : Option Nat) (q : List Nat) (x : Nat) :
    ((pa_scan M s acc q).1.procs x).age = (s.procs x).age := by
  induction q generalizing s acc with
  | nil => rfl
  | cons p t ih =>
    rw [pa_scan_cons, ih, bump_procs]
    split
    · rw [agedP_age]
    · rfl

lemma pa_scan_lifespan (M : Nat) (s : State) (acc : Option Nat) (q : List Nat) (x : Nat) :
    ((pa_scan M s acc q).1.procs x).lifespan = (s.procs x).lifespan := by
  induction q generalizing s acc with
  | nil => rfl
  | cons p t ih =>
    rw [pa_scan_cons, ih, bump_procs]
    split
    · rw [agedP_lifespan]
    · rfl

lemma selStep_mem {b : Nat → Nat → Bool} {acc : Option Nat} {p w : Nat}
    (h : selStep b acc p = some w) : w = p ∨ acc = some w := by
  cases acc with
  | none => exact Or.inl (Option.some.inj h).symm
  | some v =>
    have h' : (if b p v then some p else some v) = some w := h
    by_cases hb : b p v
    · rw [if_pos hb] at h'
      exact Or.inl (Option.some.inj h').symm
    · rw [if_neg hb] at h'
      exact Or.inr h'

lemma pa_scan_snd_mem (M : Nat) (s : State) (acc : Option Nat) (q : List Nat)
    (w : Nat) (h : (pa_scan M s acc q).2 = some w) : acc = some w ∨ w ∈ q := by
  induction q generalizing s acc with
  | nil => exact Or.inl h
  | cons p t ih =>
    rw [pa_scan_cons] at h
    rcases ih _ _ h with h1 | h1
    · rcases selStep_mem h1 with h2 | h2
      · exact Or.inr (h2 ▸ List.mem_cons_self w t)
      · exact Or.inl h2
    · exact Or.inr (List.mem_cons_of_mem p h1)

lemma pa_scan_snd (M : Nat) (s : State) (acc : Option Nat) (q : List Nat)
    (hnd : q.Nodup) (hacc : ∀ w, acc = some w → w ∉ q) :
    (pa_scan M s acc q).2
      = pickAcc (maxBy (prioOf (pa_scan M s acc q).1)) acc q := by
  induction q generalizing s acc with
  | nil => rfl
  | cons p t ih =>
    have hpt : p ∉ t := List.Nodup.not_mem hnd
    have hstep : selStep (maxBy (prioOf (bump M s p))) acc p
        = selStep (maxBy (prioOf (pa_scan M s acc (p :: t)).1)) acc p := by
      cases acc with
      | none => rfl
      | some v =>
        have hv : v ∉ p :: t := hacc v rfl
        have hBp : (pa_scan M s (some v) (p :: t)).1.procs p = (bump M s p).procs p := by
          rw [pa_scan_cons]
          exact pa_scan_procs_not_mem M _ _ t p hpt
        have hBv : (pa_scan M s (some v) (p :: t)).1.procs v = (bump M s p).procs v := by
          rw [pa_scan_cons]
          exact pa_scan_procs_not_mem M _ _ t v (fun h => hv (List.mem_cons_of_mem p h))
        have hb : maxBy (prioOf (bump M s p)) p v
            = maxBy (prioOf (pa_scan M s (some v) (p :: t)).1) p v := by
          unfold maxBy prioOf
          rw [hBp, hBv]
        show (if maxBy (prioOf (bump M s p)) p v then some p else some v)
            = if maxBy (prioOf (pa_scan M s (some v) (p :: t)).1) p v then some p
              else some v
        rw [hb]
    have hstate : (pa_scan M s acc (p :: t)).1
        = (pa_scan M (bump M s p) (selStep (maxBy (prioOf (bump M s p))) acc p) t).1 := by
      rw [pa_scan_cons]
    have haccs : ∀ w, selStep (maxBy (prioOf (bump M s p))) acc p = some w → w ∉ t := by
      intro w hw
      rcases selStep_mem hw with h2 | h2
      · exact h2 ▸ hpt
      · exact fun hmem => hacc w h2 (List.mem_cons_of_mem p hmem)
    rw [hstate] at hstep
    rw [pa_scan_cons, ih _ _ (List.Nodup.of_cons hnd) haccs]
    have hrec : pickAcc
          (maxBy (prioOf (pa_scan M (bump M s p)
            (selStep (maxBy (prioOf (bump M s p))) acc p) t).1)) acc (p :: t)
        = pickAcc
            (maxBy (prioOf (pa_scan M (bump M s p)
              (selStep (maxBy (prioOf (bump M s p))) acc p) t).1))
            (selStep
              (maxBy (prioOf (pa_scan M (bump M s p)
                (selStep (maxBy (prioOf (bump M s p))) acc p) t).1)) acc p) t := rfl
    rw [hrec, ← hstep]

/-! ## Claim C1 -/

/-- C1: the claim says `pa_release` wakes the maximum-priority waiter found
by scanning the resource's **own wait queue**, mirroring `prio_release`.
The code instead scans the global ready queue: on a state whose wait queue
holds the BLOCKED process 1 while the ready queue holds the READY process 2,
`pa_release` picks process 2 and dies on its own
`assert(waiter->status == PROCESS_BLOCKED)` (and with an empty ready queue it
dereferences a NULL `waiter`), whereas `prio_release` on the same state wakes
process 1 as the claim describes. -/
theorem c1_pa_release_scans_readyqueue :
    exC1.waitq 0 = [1]
      ∧ (exC1.procs 1).status = PStatus.BLOCKED
      ∧ exC1.owner 0 = exC1.current
      ∧ pa_release 0 exC1 = RRes.fatal (clearOwner 0 exC1)
      ∧ prio_release 0 exC1 = RRes.ok (wake 1 (clearOwner 0 exC1))
      ∧ pa_release 0 exC1b = RRes.fatal (clearOwner 0 exC1b) :=
  ⟨rfl, rfl, rfl, rfl, rfl, rfl⟩

/-! ## Claim C3 -/

/-- C3: the claim says every operation keeps each process in at most one
ordered collection. `pa_acquire` refutes it: evicting the preempted owner
(process 1, sitting READY in the ready queue) appends it to the wait queue
with no `list_del_init`, so afterwards process 1 is simultaneously in the
ready queue and in resource 0's wait queue. -/
theorem c3_pa_acquire_dual_membership :
    1 ∈ exC3.readyqueue
      ∧ exC3.owner 0 = some 1
      ∧ pa_acquire 0 exC3 = some (true, exC3out)
      ∧ 1 ∈ exC3out.readyqueue
      ∧ 1 ∈ exC3out.waitq 0 :=
  ⟨by decide, rfl, rfl, by decide, by decide⟩

/-! ## Claim C4 -/

/-- C4: the claim says no schedule callback ever returns a BLOCKED process
and that a just-blocked current is left in its wait queue. `stcf_schedule`
refutes it: it never looks at `current->status`, so a BLOCKED current with
the smallest remaining time is returned as the process to run, and the
trailing `list_del_init` even pulls it out of its wait queue. -/
theorem c4_stcf_returns_blocked :
    (exC4.procs 0).status = PStatus.BLOCKED
      ∧ exC4.current = some 0
      ∧ exC4.waitq 0 = [0]
      ∧ stcf_schedule exC4 = some (some 0, delInit 0 exC4)
      ∧ (delInit 0 exC4).waitq 0 = [] :=
  ⟨rfl, rfl, rfl, rfl, by decide⟩

/-! ## Claim C2, counterexample -/

/-- C2 as stated is false: with equal remaining times (two ticks each) the
claim says the incumbent current process 0 continues and the ready candidate
is left queued, but `stcf_schedule` uses a strict comparison, so the tie
goes to the ready process 1 and current 0 is appended to the ready-queue
tail. -/
theorem c2_counterexample :
    exC2.current = some 0
      ∧ (exC2.procs 0).age < (exC2.procs 0).lifespan
      ∧ remOf exC2 0 = remOf exC2 1
      ∧ exC2.readyqueue = [1]
      ∧ stcf_schedule exC2 = some (some 1, delInit 1 (addTailReady 0 exC2))
      ∧ 0 ∈ (delInit 1 (addTailReady 0 exC2)).readyqueue :=
  ⟨rfl, by decide, by decide, rfl, rfl, by decide⟩

/-! ## Claim C2, amended -/

/-- C2 amended: when the unfinished current process's remaining time is
**strictly** smaller than that of every ready process, `stcf_schedule`
keeps the current process running and leaves the state — in particular the
best ready candidate — untouched. (Equality of remaining times preempts the
incumbent, as `c2_counterexample` shows.) -/
theorem c2_stcf_strictly_shorter_current_continues (s : State) (c : Nat)
    (hc : s.current = some c)
    (hlive : (s.procs c).age < (s.procs c).lifespan)
    (hne : s.readyqueue ≠ [])
    (hmin : ∀ p ∈ s.readyqueue, remOf s c < remOf s p)
    (hnr : c ∉ s.readyqueue)
    (hnw : ∀ r, c ∉ s.waitq r) :
    stcf_schedule s = some (some c, s) := by
  rcases hq : s.readyqueue with _ | ⟨p, t⟩
  · exact absurd hq hne
  have hcand : pickBy (minBy (remOf s)) (p :: t)
      = some (pickFrom (minBy (remOf s)) p t) := rfl
  have hmem : pickFrom (minBy (remOf s)) p t ∈ p :: t := pickBy_mem hcand
  have hlt : remOf s c < remOf s (pickFrom (minBy (remOf s)) p t) := by
    apply hmin
    rw [hq]
    exact hmem
  have hne2 : (s.procs c).lifespan ≠ (s.procs c).age := (Nat.ne_of_lt hlive).symm
  simp only [stcf_schedule, hq, hcand, hc]
  rw [if_pos hne2, if_pos hlt, delInit_of_not_mem s c hnr hnw]

/-- Witness for `c2_stcf_strictly_shorter_current_continues` at the concrete
state `exC2w` (current remaining 1, ready candidate remaining 4). -/
theorem c2_witness : stcf_schedule exC2w = some (some 0, exC2w) :=
  c2_stcf_strictly_shorter_current_continues exC2w 0 rfl (by decide) (by decide)
    (by decide) (by decide) (fun _ => List.not_mem_nil 0)

/-! ## Claim C5, counterexample -/

/-- C5 as stated is false: with an eligible (present, unblocked) current
process but an **empty** ready queue, `pa_schedule` takes the early
continue/idle path and never resets the current process's priority — here
the boosted priority 5 survives even though the baseline is 3. -/
theorem c5_counterexample :
    exC5.current = some 0
      ∧ (exC5.procs 0).status ≠ PStatus.BLOCKED
      ∧ (exC5.procs 0).prio ≠ (exC5.procs 0).prio_orig
      ∧ pa_schedule 10 exC5 = some (some 0, exC5) :=
  ⟨rfl, by decide, by decide, rfl⟩

/-! ## Claim C5, amended -/

/-- C5 amended: when a current process exists, is not blocked, **and the
ready queue is non-empty**, `pa_schedule` resets the current process's
priority to its original baseline, increments (capped at `PRIO_MAX`) the
priority of every ready process, and picks the continuation by maximum
post-aging priority: the current process keeps the CPU only when it is
unfinished and the best aged ready priority is strictly below its baseline,
otherwise the first maximum-priority ready process is chosen. -/
theorem c5_pa_schedule_aging (M : Nat) (s : State) (c : Nat)
    (hc : s.current = some c)
    (hnb : (s.procs c).status ≠ PStatus.BLOCKED)
    (hne : s.readyqueue ≠ [])
    (hcq : c ∉ s.readyqueue)
    (hnd : s.readyqueue.Nodup) :
    ∃ s' r, pa_schedule M s = some (r, s')
      ∧ (s'.procs c).prio = (s.procs c).prio_orig
      ∧ (∀ p ∈ s.readyqueue, (s'.procs p).prio = aged M (s.procs p).prio)
      ∧ ∃ w ∈ s.readyqueue,
          (∀ p ∈ s.readyqueue, aged M (s.procs p).prio ≤ aged M (s.procs w).prio)
          ∧ r = if (s.procs c).age < (s.procs c).lifespan
                    ∧ aged M (s.procs w).prio < (s.procs c).prio_orig
                then some c else some w := by
  rcases hq : s.readyqueue with _ | ⟨p, t⟩
  · exact absurd hq hne
  have hnd2 : (p :: t).Nodup := hq ▸ hnd
  have hcq2 : c ∉ p :: t := hq ▸ hcq
  set s1 := setPrio s c (s.procs c).prio_orig with hs1
  have hrq1 : s1.readyqueue = p :: t := by rw [hs1, setPrio_readyqueue, hq]
  set B := (pa_scan M s1 none (p :: t)).1 with hB
  have hsnd : (pa_scan M s1 none (p :: t)).2 = pickBy (maxBy (prioOf B)) (p :: t) := by
    rw [pa_scan_snd M s1 none (p :: t) hnd2 (fun w h => Option.noConfusion h),
        pickAcc_none]
  set w0 := pickFrom (maxBy (prioOf B)) p t with hw0def
  have hpick : pickBy (maxBy (prioOf B)) (p :: t) = some w0 := rfl
  have hsnd2 : (pa_scan M s1 none (p :: t)).2 = some w0 := by rw [hsnd, hpick]
  have hpair : pa_scan M s1 none (p :: t) = (B, some w0) := by
    rw [hB, ← hsnd2]
  have hBc : B.procs c = { s.procs c with prio := (s.procs c).prio_orig } := by
    rw [hB, pa_scan_procs_not_mem M s1 none (p :: t) c hcq2, hs1, setPrio_procs,
        if_pos rfl]
  have hBmem : ∀ x ∈ p :: t, B.procs x = agedP M (s.procs x) := by
    intro x hx
    rw [hB, pa_scan_procs_mem M s1 none (p :: t) hnd2 x hx, hs1, setPrio_procs,
        if_neg (fun h : x = c => hcq2 (h ▸ hx))]
  have hw0mem : w0 ∈ p :: t := pickBy_mem hpick
  have hBcprio : (B.procs c).prio = (s.procs c).prio_orig := by rw [hBc]
  have hagedall : ∀ x ∈ p :: t, (B.procs x).prio = aged M (s.procs x).prio := by
    intro x hx
    rw [hBmem x hx, agedP_prio]
  have hge : ∀ x ∈ p :: t, aged M (s.procs x).prio ≤ aged M (s.procs w0).prio := by
    intro x hx
    have h1 := pickBy_maxBy hpick x hx
    rw [prioOf, prioOf, hBmem x hx, hBmem w0 hw0mem, agedP_prio, agedP_prio] at h1
    exact h1
  have hBage : (B.procs c).age = (s.procs c).age := by
    rw [hB, pa_scan_age, hs1, setPrio_age]
  have hBlife : (B.procs c).lifespan = (s.procs c).lifespan := by
    rw [hB, pa_scan_lifespan, hs1, setPrio_lifespan]
  have hw0prio : (B.procs w0).prio = aged M (s.procs w0).prio := hagedall w0 hw0mem
  have hps : pa_schedule M s
      = (if (B.procs c).age < (B.procs c).lifespan then
           if (B.procs w0).prio < (B.procs c).prio then some (some c, B)
           else some (some w0, delInit w0 (addTailReady c B))
         else some (some w0, delInit w0 B)) := by
    simp only [pa_schedule, hc]
    rw [if_neg hnb]
    simp only [setPrio_readyqueue, hq]
    rw [← hs1, hpair]
  by_cases ha : (s.procs c).age < (s.procs c).lifespan
  · by_cases hb : aged M (s.procs w0).prio < (s.procs c).prio_orig
    · refine ⟨B, some c, ?_, hBcprio, hagedall, w0, hw0mem, hge, ?_⟩
      · rw [hps, if_pos (by rw [hBage, hBlife]; exact ha),
            if_pos (by rw [hw0prio, hBcprio]; exact hb)]
      · rw [if_pos ⟨ha, hb⟩]
    · refine ⟨delInit w0 (addTailReady c B), some w0, ?_, ?_, ?_, w0, hw0mem, hge, ?_⟩
      · rw [hps, if_pos (by rw [hBage, hBlife]; exact ha),
            if_neg (by rw [hw0prio, hBcprio]; exact hb)]
      · simp only [delInit_procs, addTailReady_procs]
        exact hBcprio
      · intro x hx
        simp only [delInit_procs, addTailReady_procs]
        exact hagedall x hx
      · rw [if_neg (fun h => hb h.2)]
  · refine ⟨delInit w0 B, some w0, ?_, ?_, ?_, w0, hw0mem, hge, ?_⟩
    · rw [hps, if_neg (by rw [hBage, hBlife]; exact ha)]
    · simp only [delInit_procs]
      exact hBcprio
    · intro x hx
      simp only [delInit_procs]
      exact hagedall x hx
    · rw [if_neg (fun h => ha h.1)]

/-- Witness for `c5_pa_schedule_aging` at `exC5w` with `PRIO_MAX = 10`:
current 0 has boosted priority 5 and baseline 3, the ready queue holds
processes 1 and 2 with priorities 1 and 4. -/
theorem c5_witness :
    ∃ s' r, pa_schedule 10 exC5w = some (r, s')
      ∧ (s'.procs 0).prio = (exC5w.procs 0).prio_orig
      ∧ (∀ p ∈ exC5w.readyqueue, (s'.procs p).prio = aged 10 (exC5w.procs p).prio)
      ∧ ∃ w ∈ exC5w.readyqueue,
          (∀ p ∈ exC5w.readyqueue,
            aged 10 (exC5w.procs p).prio ≤ aged 10 (exC5w.procs w).prio)
          ∧ r = if (exC5w.procs 0).age < (exC5w.procs 0).lifespan
                    ∧ aged 10 (exC5w.procs w).prio < (exC5w.procs 0).prio_orig
                then some 0 else some w :=
  c5_pa_schedule_aging 10 exC5w 0 rfl (by decide) (by decide) (by decide) (by decide)

/-! ## Claim C6 -/

/-- C6: `pcp_acquire` on a free resource grants ownership and immediately
raises the new owner's priority to the ceiling `PRIO_MAX`, changing nothing
else; `pcp_release` by the owner restores the owner's priority to its
baseline, clears ownership, and wakes the maximum-priority waiter of the
resource's wait queue — unlinking it, marking it READY and appending it to
the ready-queue tail. -/
theorem c6_pcp_ceiling_protocol (M rid : Nat) (s : State) (c : Nat) :
    (s.owner rid = none → s.current = some c →
      ∃ s', pcp_acquire M rid s = some (true, s')
        ∧ s'.owner rid = some c
        ∧ (s'.procs c).prio = M
        ∧ (∀ x, x ≠ c → s'.procs x = s.procs x)
        ∧ s'.readyqueue = s.readyqueue
        ∧ (∀ r, s'.waitq r = s.waitq r))
    ∧ (s.owner rid = some c → s.current = some c →
        s.waitq rid ≠ [] →
        (∀ p ∈ s.waitq rid, (s.procs p).status = PStatus.BLOCKED) →
        c ∉ s.waitq rid →
        (∀ p ∈ s.waitq rid, p ∉ s.readyqueue) →
        ∃ s' w, pcp_release rid s = RRes.ok s'
          ∧ w ∈ s.waitq rid
          ∧ (∀ p ∈ s.waitq rid, (s.procs p).prio ≤ (s.procs w).prio)
          ∧ (s'.procs c).prio = (s.procs c).prio_orig
          ∧ s'.owner rid = none
          ∧ (s'.procs w).status = PStatus.READY
          ∧ s'.readyqueue = s.readyqueue ++ [w]
          ∧ s'.waitq rid = (s.waitq rid).erase w) := by
  constructor
  · intro ho hc
    refine ⟨setPrio (setOwner s rid (some c)) c M, ?_, ?_, ?_, ?_, ?_, ?_⟩
    · simp only [pcp_acquire, ho, hc]
    · rw [setPrio_owner, setOwner_owner, if_pos rfl]
    · rw [setPrio_prio, if_pos rfl]
    · intro x hx
      rw [setPrio_procs, if_neg hx, setOwner_procs]
    · rw [setPrio_readyqueue, setOwner_readyqueue]
    · intro r
      rw [setPrio_waitq, setOwner_waitq]
  · intro ho hc hne hall hcw hwr
    rcases hwq : s.waitq rid with _ | ⟨p, t⟩
    · exact absurd hwq hne
    set s1 := setPrio s c (s.procs c).prio_orig with hs1
    set s2 := clearOwner rid s1 with hs2
    have hw2 : s2.waitq rid = p :: t := by
      rw [hs2, clearOwner_waitq, hs1, setPrio_waitq, hwq]
    set w0 := pickFrom (maxBy (prioOf s2)) p t with hw0def
    have hpick : pickBy (maxBy (prioOf s2)) (p :: t) = some w0 := rfl
    have hw0mem : w0 ∈ p :: t := pickBy_mem hpick
    have hw0memw : w0 ∈ s.waitq rid := by rw [hwq]; exact hw0mem
    have hw0c : w0 ≠ c := fun h => hcw (h ▸ hw0memw)
    have hs2procs : ∀ x, x ≠ c → s2.procs x = s.procs x := by
      intro x hx
      rw [hs2, clearOwner_procs, hs1, setPrio_procs, if_neg hx]
    have hst : (s2.procs w0).status = PStatus.BLOCKED := by
      rw [hs2procs w0 hw0c]
      exact hall w0 hw0memw
    have hcond : (setPrio s c (s.procs c).prio_orig).owner rid
        = (setPrio s c (s.procs c).prio_orig).current := by
      rw [setPrio_owner, setPrio_current, ho, hc]
    refine ⟨wake w0 s2, w0, ?_, hw0mem, ?_, ?_, ?_, ?_, ?_, ?_⟩
    · simp only [pcp_release, ho]
      rw [if_pos hcond, ← hs1, ← hs2, hw2, hpick]
      show (if (s2.procs w0).status = PStatus.BLOCKED then RRes.ok (wake w0 s2)
            else RRes.fatal s2) = RRes.ok (wake w0 s2)
      rw [if_pos hst]
    · intro x hx
      have h1 := pickBy_maxBy hpick x hx
      have hxc : x ≠ c := fun h => hcw (h ▸ (hwq.symm ▸ hx))
      rw [prioOf, prioOf, hs2procs x hxc, hs2procs w0 hw0c] at h1
      exact h1
    · rw [wake_procs, if_neg (Ne.symm hw0c), hs2, clearOwner_procs, hs1,
          setPrio_prio, if_pos rfl]
    · rw [wake_owner, hs2, clearOwner, setOwner_owner, if_pos rfl]
    · rw [wake_procs, if_pos rfl]
    · rw [wake_readyqueue, hs2, clearOwner_readyqueue, hs1, setPrio_readyqueue,
          List.erase_of_not_mem (hwr w0 hw0memw)]
    · rw [wake_waitq, hw2]

/-- Witness for `c6_pcp_ceiling_protocol`: the grant half at `exC6a`
(free resource 0, running process 1, ceiling 9) and the release half at
`exC6r` (owner 0 at ceiling with baseline 2, waiters 1 and 2 of priorities
3 and 7). -/
theorem c6_witness :
    (∃ s', pcp_acquire 9 0 exC6a = some (true, s')
      ∧ s'.owner 0 = some 1
      ∧ (s'.procs 1).prio = 9
      ∧ (∀ x, x ≠ 1 → s'.procs x = exC6a.procs x)
      ∧ s'.readyqueue = exC6a.readyqueue
      ∧ (∀ r, s'.waitq r = exC6a.waitq r))
    ∧ (∃ s' w, pcp_release 0 exC6r = RRes.ok s'
      ∧ w ∈ exC6r.waitq 0
      ∧ (∀ p ∈ exC6r.waitq 0, (exC6r.procs p).prio ≤ (exC6r.procs w).prio)
      ∧ (s'.procs 0).prio = (exC6r.procs 0).prio_orig
      ∧ s'.owner 0 = none
      ∧ (s'.procs w).status = PStatus.READY
      ∧ s'.readyqueue = exC6r.readyqueue ++ [w]
      ∧ s'.waitq 0 = (exC6r.waitq 0).erase w) :=
  ⟨(c6_pcp_ceiling_protocol 9 0 exC6a 1).1 rfl rfl,
   (c6_pcp_ceiling_protocol 9 0 exC6r 0).2 rfl rfl (by decide) (by decide)
     (by decide) (by decide)⟩

/-! ## Claim C7 -/

/-- C7: `pip_acquire` on a held resource boosts the owner's priority to the
requester's exactly when the requester strictly outranks the owner
(otherwise every priority is unchanged), and in every held case the
requester is marked BLOCKED, appended to the tail of the resource's wait
queue, and the call reports failure. -/
theorem c7_pip_acquire_inheritance (rid : Nat) (s : State) (c o : Nat)
    (hc : s.current = some c) (ho : s.owner rid = some o)
    (hcr : c ∉ s.readyqueue) (hcw : ∀ r, c ∉ s.waitq r) :
    ∃ s', pip_acquire rid s = some (false, s')
      ∧ (s'.procs o).prio
          = (if (s.procs o).prio < (s.procs c).prio then (s.procs c).prio
             else (s.procs o).prio)
      ∧ (∀ x, x ≠ o → (s'.procs x).prio = (s.procs x).prio)
      ∧ (s'.procs c).status = PStatus.BLOCKED
      ∧ s'.waitq rid = s.waitq rid ++ [c]
      ∧ s'.readyqueue = s.readyqueue
      ∧ (∀ k, s'.owner k = s.owner k) := by
  set s1 := if (s.procs o).prio < (s.procs c).prio
            then setPrio s o (s.procs c).prio else s with hs1
  have hs1procs : ∀ x, s1.procs x
      = if (s.procs o).prio < (s.procs c).prio ∧ x = o
        then { s.procs x with prio := (s.procs c).prio } else s.procs x := by
    intro x
    rw [hs1]
    by_cases hb : (s.procs o).prio < (s.procs c).prio
    · rw [if_pos hb, setPrio_procs]
      by_cases hx : x = o
      · rw [if_pos hx, if_pos ⟨hb, hx⟩]
      · rw [if_neg hx, if_neg (fun h => hx h.2)]
    · rw [if_neg hb, if_neg (fun h => hb h.1)]
  have hs1r : s1.readyqueue = s.readyqueue := by
    rw [hs1]; split <;> simp
  have hs1w : ∀ k, s1.waitq k = s.waitq k := by
    intro k; rw [hs1]; split <;> simp
  have hs1o : ∀ k, s1.owner k = s.owner k := by
    intro k; rw [hs1]; split <;> simp
  refine ⟨addTailWait rid c (setStatus (delInit c s1) c PStatus.BLOCKED),
    ?_, ?_, ?_, ?_, ?_, ?_, ?_⟩
  · simp only [pip_acquire, ho, hc]
  · rw [addTailWait_procs, setStatus_prio, delInit_procs, hs1procs o]
    by_cases hb : (s.procs o).prio < (s.procs c).prio
    · rw [if_pos ⟨hb, rfl⟩, if_pos hb]
    · rw [if_neg (fun h => hb h.1), if_neg hb]
  · intro x hx
    rw [addTailWait_procs, setStatus_prio, delInit_procs, hs1procs x,
        if_neg (fun h => hx h.2)]
  · rw [addTailWait_procs, setStatus_status, if_pos rfl]
  · rw [addTailWait_waitq, if_pos rfl, setStatus_waitq, delInit_waitq, hs1w rid,
        List.erase_of_not_mem (hcw rid)]
  · rw [addTailWait_readyqueue, setStatus_readyqueue, delInit_readyqueue, hs1r,
        List.erase_of_not_mem hcr]
  · intro k
    rw [addTailWait_owner, setStatus_owner, delInit_owner, hs1o k]

/-- Witness for `c7_pip_acquire_inheritance` at `exC7w`: process 1
(priority 2) owns resource 0 and the running process 2 (priority 6)
requests it, so the owner is boosted to 6 and process 2 blocks. -/
theorem c7_witness :
    ∃ s', pip_acquire 0 exC7w = some (false, s')
      ∧ (s'.procs 1).prio
          = (if (exC7w.procs 1).prio < (exC7w.procs 2).prio then (exC7w.procs 2).prio
             else (exC7w.procs 1).prio)
      ∧ (∀ x, x ≠ 1 → (s'.procs x).prio = (exC7w.procs x).prio)
      ∧ (s'.procs 2).status = PStatus.BLOCKED
      ∧ s'.waitq 0 = exC7w.waitq 0 ++ [2]
      ∧ s'.readyqueue = exC7w.readyqueue
      ∧ (∀ k, s'.owner k = exC7w.owner k) :=
  c7_pip_acquire_inheritance 0 exC7w 2 1 rfl rfl (by decide)
    (fun _ => List.not_mem_nil 2)

/-! ## Claim C9 -/

/-- C9: with no current process and an empty ready queue the RR, Priority,
PCP and PIP schedule callbacks dereference the NULL `current` pointer
(modelled as returning `none`, the undefined-behaviour result); whenever a
current process exists or the ready queue is non-empty, all four are
defined. -/
theorem c9_schedule_null_current_deref (s : State) :
    (s.current = none ∧ s.readyqueue = [] →
      rr_schedule s = none ∧ prio_schedule s = none
        ∧ pcp_schedule s = none ∧ pip_schedule s = none)
    ∧ ((s.current ≠ none ∨ s.readyqueue ≠ []) →
        (rr_schedule s).isSome ∧ (prio_schedule s).isSome
          ∧ (pcp_schedule s).isSome ∧ (pip_schedule s).isSome) := by
  constructor
  · rintro ⟨h1, h2⟩
    refine ⟨?_, ?_, ?_, ?_⟩
    · simp only [rr_schedule, h1, h2]
    · simp only [prio_schedule, h1, h2]
    · simp only [pcp_schedule, h1, h2]
    · simp only [pip_schedule, h1, h2]
  · intro h
    rcases hq : s.readyqueue with _ | ⟨p, t⟩
    · rcases hcur : s.current with _ | c
      · rcases h with h | h
        · exact absurd hcur h
        · exact absurd hq h
      · refine ⟨?_, ?_, ?_, ?_⟩
        · simp only [rr_schedule, hq, hcur]
          split <;> rfl
        · simp only [prio_schedule, hq, hcur]
          split <;> rfl
        · simp only [pcp_schedule, hq, hcur]
          split <;> rfl
        · simp only [pip_schedule, hq, hcur]
          split <;> rfl
    · refine ⟨?_, ?_, ?_, ?_⟩
      · simp only [rr_schedule, hq]
        rcases s.current with _ | c
        · rfl
        · dsimp only
          repeat' split
          all_goals rfl
      · simp only [prio_schedule, hq, pickBy_cons]
        rcases s.current with _ | c
        · rfl
        · dsimp only
          repeat' split
          all_goals rfl
      · simp only [pcp_schedule, hq, pickBy_cons]
        rcases s.current with _ | c
        · rfl
        · dsimp only
          repeat' split
          all_goals rfl
      · simp only [pip_schedule, hq, pickBy_cons]
        rcases s.current with _ | c
        · rfl
        · dsimp only
          repeat' split
          all_goals rfl

/-- Witness for `c9_schedule_null_current_deref`: at `exC9e` (no current,
empty ready queue) all four callbacks hit the NULL dereference, and at
`exC9s` (a current process exists) all four are defined. -/
theorem c9_witness :
    (rr_schedule exC9e = none ∧ prio_schedule exC9e = none
      ∧ pcp_schedule exC9e = none ∧ pip_schedule exC9e = none)
    ∧ ((rr_schedule exC9s).isSome ∧ (prio_schedule exC9s).isSome
      ∧ (pcp_schedule exC9s).isSome ∧ (pip_schedule exC9s).isSome) :=
  ⟨(c9_schedule_null_current_deref exC9e).1 ⟨rfl, rfl⟩,
   (c9_schedule_null_current_deref exC9s).2 (Or.inl (by decide))⟩

/-! ## Claim C10, counterexample -/

/-- C10 as stated is false: `pcp_release` restores the owner's priority to
its baseline **before** its ownership assert, so on the fatal non-owner
path (owner is process 1, caller is process 0) the aborting state already
carries the mutated priority (7 dropped to 2). -/
theorem c10_counterexample :
    exC10.owner 0 ≠ exC10.current
      ∧ pcp_release 0 exC10 = RRes.fatal (setPrio exC10 1 2)
      ∧ (setPrio exC10 1 2).procs 1 ≠ exC10.procs 1 :=
  ⟨by decide, rfl, by decide⟩

/-! ## Claim C10, amended -/

/-- C10 amended: when the resource's owner is not the caller, the FCFS,
Priority, Priority-with-Aging and PIP releases abort with the state
completely unchanged; `pcp_release` first rewrites the owner's priority to
its baseline (when an owner exists) and only then aborts, and with no owner
at all it crashes on the NULL owner dereference with the state unchanged. -/
theorem c10_release_nonowner_fatal (rid : Nat) (s : State)
    (h : s.owner rid ≠ s.current) :
    fcfs_release rid s = RRes.fatal s
      ∧ prio_release rid s = RRes.fatal s
      ∧ pa_release rid s = RRes.fatal s
      ∧ pip_release rid s = RRes.fatal s
      ∧ (match s.owner rid with
         | none => pcp_release rid s = RRes.fatal s
         | some o => pcp_release rid s
             = RRes.fatal (setPrio s o (s.procs o).prio_orig)) := by
  refine ⟨?_, ?_, ?_, ?_, ?_⟩
  · unfold fcfs_release
    rw [if_neg h]
  · unfold prio_release
    rw [if_neg h]
  · unfold pa_release
    rw [if_neg h]
  · unfold pip_release
    rw [if_neg h]
  · cases ho : s.owner rid with
    | none => simp only [pcp_release, ho]
    | some o =>
      have h2 : (setPrio s o (s.procs o).prio_orig).owner rid
          ≠ (setPrio s o (s.procs o).prio_orig).current := by
        rw [setPrio_owner, setPrio_current]
        exact h
      simp only [pcp_release, ho]
      rw [if_neg h2]

/-- Witness for `c10_release_nonowner_fatal` at `exC10` (resource 0 owned
by process 1 while process 0 is current). -/
theorem c10_witness :
    fcfs_release 0 exC10 = RRes.fatal exC10
      ∧ prio_release 0 exC10 = RRes.fatal exC10
      ∧ pa_release 0 exC10 = RRes.fatal exC10
      ∧ pip_release 0 exC10 = RRes.fatal exC10
      ∧ (match exC10.owner 0 with
         | none => pcp_release 0 exC10 = RRes.fatal exC10
         | some o => pcp_release 0 exC10
             = RRes.fatal (setPrio exC10 o (exC10.procs o).prio_orig)) :=
  c10_release_nonowner_fatal 0 exC10 (by decide)

/-! ## Claim C8: infrastructure -/

lemma coreEq_refl (s : State) : coreEq s s := fun _ => ⟨rfl, rfl⟩

lemma coreEq_trans {s1 s2 s3 : State} (h1 : coreEq s1 s2) (h2 : coreEq s2 s3) :
    coreEq s1 s3 :=
  fun x => ⟨(h2 x).1.trans (h1 x).1, (h2 x).2.trans (h1 x).2⟩

lemma liveIn_of_coreEq {s s' : State} (h : coreEq s s') {p : Nat} :
    liveIn s p → liveIn s' p := by
  unfold liveIn
  rw [(h p).1, (h p).2]
  exact id

lemma AgesOk_of_coreEq {s s' : State} (h : coreEq s s') : AgesOk s → AgesOk s' := by
  intro hA p
  rw [(h p).1, (h p).2]
  exact hA p

lemma coreEq_setStatus (s : State) (p : Nat) (st : PStatus) :
    coreEq s (setStatus s p st) :=
  fun x => ⟨setStatus_age s p st x, setStatus_lifespan s p st x⟩

lemma coreEq_setPrio (s : State) (p v : Nat) : coreEq s (setPrio s p v) :=
  fun x => ⟨setPrio_age s p v x, setPrio_lifespan s p v x⟩

lemma coreEq_setOwner (s : State) (r : Nat) (o : Option Nat) :
    coreEq s (setOwner s r o) := fun _ => ⟨rfl, rfl⟩

lemma coreEq_clearOwner (r : Nat) (s : State) : coreEq s (clearOwner r s) :=
  fun _ => ⟨rfl, rfl⟩

lemma coreEq_addTailReady (p : Nat) (s : State) : coreEq s (addTailReady p s) :=
  fun _ => ⟨rfl, rfl⟩

lemma coreEq_addTailWait (r p : Nat) (s : State) : coreEq s (addTailWait r p s) :=
  fun _ => ⟨rfl, rfl⟩

lemma coreEq_delInit (p : Nat) (s : State) : coreEq s (delInit p s) :=
  fun _ => ⟨rfl, rfl⟩

lemma coreEq_wake (w : Nat) (s : State) : coreEq s (wake w s) := by
  intro x
  rw [wake_procs]
  split
  · exact ⟨rfl, rfl⟩
  · exact ⟨rfl, rfl⟩

lemma coreEq_pa_scan (M : Nat) (s : State) (acc : Option Nat) (q : List Nat) :
    coreEq s (pa_scan M s acc q).1 :=
  fun x => ⟨pa_scan_age M s acc q x, pa_scan_lifespan M s acc q x⟩

/-- Assemble `QueuesLive` for a derived state from liveness (in the base
state) of everything its queues hold. -/
lemma QueuesLive_build {s s' : State} (hcore : coreEq s s')
    (hr : ∀ p, p ∈ s'.readyqueue → liveIn s p)
    (hw : ∀ r p, p ∈ s'.waitq r → liveIn s p) : QueuesLive s' :=
  ⟨fun p hp => liveIn_of_coreEq hcore (hr p hp),
   fun r p hp => liveIn_of_coreEq hcore (hw r p hp)⟩

lemma QueuesLive_delInit {s : State} (h : QueuesLive s) (x : Nat) :
    QueuesLive (delInit x s) :=
  QueuesLive_build (coreEq_delInit x s)
    (fun p hp => h.1 p (List.mem_of_mem_erase hp))
    (fun r p hp => h.2 r p (List.mem_of_mem_erase hp))

lemma QueuesLive_addTailReady {s : State} (h : QueuesLive s) {x : Nat}
    (hx : liveIn s x) : QueuesLive (addTailReady x s) := by
  refine QueuesLive_build (coreEq_addTailReady x s) ?_ (fun r p hp => h.2 r p hp)
  intro p hp
  rw [addTailReady_readyqueue] at hp
  rcases List.mem_append.mp hp with h1 | h1
  · exact h.1 p h1
  · rw [List.mem_singleton.mp h1]
    exact hx

lemma QueuesLive_addTailWait {s : State} (h : QueuesLive s) (r0 : Nat) {x : Nat}
    (hx : liveIn s x) : QueuesLive (addTailWait r0 x s) := by
  refine QueuesLive_build (coreEq_addTailWait r0 x s) (fun p hp => h.1 p hp) ?_
  intro r p hp
  rw [addTailWait_waitq] at hp
  by_cases hr : r = r0
  · rw [if_pos hr] at hp
    rcases List.mem_append.mp hp with h1 | h1
    · exact h.2 r p h1
    · rw [List.mem_singleton.mp h1]
      exact hx
  · rw [if_neg hr] at hp
    exact h.2 r p hp

lemma QueuesLive_setStatus {s : State} (h : QueuesLive s) (x : Nat) (st : PStatus) :
    QueuesLive (setStatus s x st) :=
  QueuesLive_build (coreEq_setStatus s x st) (fun p hp => h.1 p hp)
    (fun r p hp => h.2 r p hp)

lemma QueuesLive_setPrio {s : State} (h : QueuesLive s) (x v : Nat) :
    QueuesLive (setPrio s x v) :=
  QueuesLive_build (coreEq_setPrio s x v) (fun p hp => h.1 p hp)
    (fun r p hp => h.2 r p hp)

lemma QueuesLive_setOwner {s : State} (h : QueuesLive s) (r : Nat) (o : Option Nat) :
    QueuesLive (setOwner s r o) :=
  QueuesLive_build (coreEq_setOwner s r o) (fun p hp => h.1 p hp)
    (fun r' p hp => h.2 r' p hp)

lemma QueuesLive_wake {s : State} (h : QueuesLive s) {w : Nat} (hw : liveIn s w) :
    QueuesLive (wake w s) := by
  refine QueuesLive_build (coreEq_wake w s) ?_ ?_
  · intro p hp
    rw [wake_readyqueue] at hp
    rcases List.mem_append.mp hp with h1 | h1
    · exact h.1 p (List.mem_of_mem_erase h1)
    · rw [List.mem_singleton.mp h1]
      exact hw
  · intro r p hp
    rw [wake_waitq] at hp
    exact h.2 r p (List.mem_of_mem_erase hp)

lemma QueuesLive_pa_scan {s : State} (h : QueuesLive s) (M : Nat) (acc : Option Nat)
    (q : List Nat) : QueuesLive (pa_scan M s acc q).1 := by
  refine QueuesLive_build (coreEq_pa_scan M s acc q) ?_ ?_
  · intro p hp
    rw [pa_scan_readyqueue] at hp
    exact h.1 p hp
  · intro r p hp
    rw [pa_scan_waitq] at hp
    exact h.2 r p hp

lemma SchedOK_none : SchedOK none := trivial

lemma pickHead_ok {s : State} (hQ : QueuesLive s) (hA : AgesOk s) :
    SchedOK (some (pickHead s)) := by
  unfold pickHead
  rcases hq : s.readyqueue with _ | ⟨n, t⟩
  · exact ⟨fun c hc => Option.noConfusion hc, hQ, hA⟩
  · have hn : n ∈ s.readyqueue := hq.symm ▸ List.mem_cons_self n t
    exact ⟨fun c hc => by
        cases Option.some.inj hc
        exact hQ.1 n hn,
      QueuesLive_delInit hQ n, hA⟩

lemma pickScan_ok {s : State} (hQ : QueuesLive s) (hA : AgesOk s)
    (b : Nat → Nat → Bool) : SchedOK (some (pickScan b s)) := by
  unfold pickScan
  rcases hp : pickBy b s.readyqueue with _ | w
  · exact ⟨fun c hc => Option.noConfusion hc, hQ, hA⟩
  · have hw : w ∈ s.readyqueue := pickBy_mem hp
    exact ⟨fun c hc => by
        cases Option.some.inj hc
        exact hQ.1 w hw,
      QueuesLive_delInit hQ w, hA⟩

lemma fcfs_schedule_ok {s : State} (hQ : QueuesLive s) (hA : AgesOk s) :
    SchedOK (fcfs_schedule s) := by
  unfold fcfs_schedule
  rcases s.current with _ | c
  · exact pickHead_ok hQ hA
  · dsimp only
    by_cases hb : (s.procs c).status = PStatus.BLOCKED
    · rw [if_pos hb]
      exact pickHead_ok hQ hA
    · rw [if_neg hb]
      by_cases ha : (s.procs c).age < (s.procs c).lifespan
      · rw [if_pos ha]
        exact ⟨fun x hx => by cases Option.some.inj hx; exact ha, hQ, hA⟩
      · rw [if_neg ha]
        exact pickHead_ok hQ hA

lemma sjf_schedule_ok {s : State} (hQ : QueuesLive s) (hA : AgesOk s) :
    SchedOK (sjf_schedule s) := by
  unfold sjf_schedule
  rcases s.current with _ | c
  · exact pickScan_ok hQ hA _
  · dsimp only
    by_cases hb : (s.procs c).status = PStatus.BLOCKED
    · rw [if_pos hb]
      exact pickScan_ok hQ hA _
    · rw [if_neg hb]
      by_cases ha : (s.procs c).age < (s.procs c).lifespan
      · rw [if_pos ha]
        exact ⟨fun x hx => by cases Option.some.inj hx; exact ha, hQ, hA⟩
      · rw [if_neg ha]
        exact pickScan_ok hQ hA _

lemma rr_schedule_ok {s : State} (hQ : QueuesLive s) (hA : AgesOk s) :
    SchedOK (rr_schedule s) := by
  unfold rr_schedule
  rcases hq : s.readyqueue with _ | ⟨n, t⟩
  · rcases s.current with _ | c
    · exact SchedOK_none
    · dsimp only
      by_cases ha : (s.procs c).age < (s.procs c).lifespan
      · rw [if_pos ha]
        exact ⟨fun x hx => by cases Option.some.inj hx; exact ha, hQ, hA⟩
      · rw [if_neg ha]
        exact ⟨fun x hx => Option.noConfusion hx, hQ, hA⟩
  · have hn : n ∈ s.readyqueue := hq.symm ▸ List.mem_cons_self n t
    rcases s.current with _ | c
    · dsimp only
      exact ⟨fun x hx => by cases Option.some.inj hx; exact hQ.1 n hn,
        QueuesLive_delInit hQ n, hA⟩
    · dsimp only
      by_cases hne : (s.procs c).lifespan ≠ (s.procs c).age
      · rw [if_pos hne]
        have hlc : liveIn s c := Nat.lt_of_le_of_ne (hA c) (fun h => hne h.symm)
        exact ⟨fun x hx => by cases Option.some.inj hx; exact hQ.1 n hn,
          QueuesLive_addTailReady (QueuesLive_delInit hQ n) hlc, hA⟩
      · rw [if_neg hne]
        exact ⟨fun x hx => by cases Option.some.inj hx; exact hQ.1 n hn,
          QueuesLive_delInit hQ n, hA⟩

lemma stcf_schedule_ok {s : State} (hQ : QueuesLive s) (hA : AgesOk s) :
    SchedOK (stcf_schedule s) := by
  unfold stcf_schedule
  rcases hq : s.readyqueue with _ | ⟨p, t⟩
  · rcases s.current with _ | c
    · exact SchedOK_none
    · dsimp only
      by_cases ha : (s.procs c).age < (s.procs c).lifespan
      · rw [if_pos ha]
        exact ⟨fun x hx => by cases Option.some.inj hx; exact ha, hQ, hA⟩
      · rw [if_neg ha]
        exact ⟨fun x hx => Option.noConfusion hx, hQ, hA⟩
  · rw [pickBy_cons]
    have hcm : pickFrom (minBy (remOf s)) p t ∈ s.readyqueue := by
      rw [hq]
      exact pickBy_mem (pickBy_cons (minBy (remOf s)) p t)
    set cand := pickFrom (minBy (remOf s)) p t with hcand
    rcases s.current with _ | c
    · dsimp only
      exact ⟨fun x hx => by cases Option.some.inj hx; exact hQ.1 cand hcm,
        QueuesLive_delInit hQ cand, hA⟩
    · dsimp only
      by_cases hne : (s.procs c).lifespan ≠ (s.procs c).age
      · rw [if_pos hne]
        have hlc : liveIn s c := Nat.lt_of_le_of_ne (hA c) (fun h => hne h.symm)
        by_cases hlt : remOf s c < remOf s cand
        · rw [if_pos hlt]
          exact ⟨fun x hx => by cases Option.some.inj hx; exact hlc,
            QueuesLive_delInit hQ c, hA⟩
        · rw [if_neg hlt]
          exact ⟨fun x hx => by cases Option.some.inj hx; exact hQ.1 cand hcm,
            QueuesLive_delInit (QueuesLive_addTailReady hQ hlc) cand, hA⟩
      · rw [if_neg hne]
        exact ⟨fun x hx => by cases Option.some.inj hx; exact hQ.1 cand hcm,
          QueuesLive_delInit hQ cand, hA⟩

lemma prio_schedule_ok {s : State} (hQ : QueuesLive s) (hA : AgesOk s) :
    SchedOK (prio_schedule s) := by
  unfold prio_schedule
  rcases hq : s.readyqueue with _ | ⟨p, t⟩
  · rcases s.current with _ | c
    · exact SchedOK_none
    · dsimp only
      by_cases ha : (s.procs c).age < (s.procs c).lifespan
      · rw [if_pos ha]
        exact ⟨fun x hx => by cases Option.some.inj hx; exact ha, hQ, hA⟩
      · rw [if_neg ha]
        exact ⟨fun x hx => Option.noConfusion hx, hQ, hA⟩
  · rw [pickBy_cons]
    have hnm : pickFrom (prioReadyGT s) p t ∈ s.readyqueue := by
      rw [hq]
      exact pickBy_mem (pickBy_cons (prioReadyGT s) p t)
    set nxt := pickFrom (prioReadyGT s) p t with hnxt
    rcases s.current with _ | c
    · dsimp only
      exact ⟨fun x hx => by cases Option.some.inj hx; exact hQ.1 nxt hnm,
        QueuesLive_delInit hQ nxt, hA⟩
    · dsimp only
      by_cases he : (s.procs c).age = (s.procs c).lifespan
      · rw [if_pos he]
        exact ⟨fun x hx => by cases Option.some.inj hx; exact hQ.1 nxt hnm,
          QueuesLive_delInit hQ nxt, hA⟩
      · rw [if_neg he]
        have hlc : liveIn s c := Nat.lt_of_le_of_ne (hA c) he
        by_cases hb : (s.procs c).status ≠ PStatus.BLOCKED
        · rw [if_pos hb]
          by_cases h2 : (s.procs nxt).prio < (s.procs c).prio
          · rw [if_pos h2]
            exact ⟨fun x hx => by cases Option.some.inj hx; exact hlc, hQ, hA⟩
          · rw [if_neg h2]
            by_cases h3 : (s.procs c).age ≠ (s.procs c).lifespan
            · rw [if_pos h3]
              exact ⟨fun x hx => by cases Option.some.inj hx; exact hQ.1 nxt hnm,
                QueuesLive_delInit (QueuesLive_addTailReady hQ hlc) nxt, hA⟩
            · rw [if_neg h3]
              exact ⟨fun x hx => by cases Option.some.inj hx; exact hQ.1 nxt hnm,
                QueuesLive_delInit hQ nxt, hA⟩
        · rw [if_neg hb]
          exact ⟨fun x hx => by cases Option.some.inj hx; exact hQ.1 nxt hnm,
            QueuesLive_delInit hQ nxt, hA⟩

lemma pcp_schedule_ok {s : State} (hQ : QueuesLive s) (hA : AgesOk s) :
    SchedOK (pcp_schedule s) := by
  unfold pcp_schedule
  rcases hq : s.readyqueue with _ | ⟨p, t⟩
  · rcases s.current with _ | c
    · exact SchedOK_none
    · dsimp only
      by_cases ha : (s.procs c).age < (s.procs c).lifespan
      · rw [if_pos ha]
        exact ⟨fun x hx => by cases Option.some.inj hx; exact ha, hQ, hA⟩
      · rw [if_neg ha]
        exact ⟨fun x hx => Option.noConfusion hx, hQ, hA⟩
  · rw [pickBy_cons]
    have hnm : pickFrom (maxBy (prioOf s)) p t ∈ s.readyqueue := by
      rw [hq]
      exact pickBy_mem (pickBy_cons (maxBy (prioOf s)) p t)
    set nxt := pickFrom (maxBy (prioOf s)) p t with hnxt
    rcases s.current with _ | c
    · dsimp only
      exact ⟨fun x hx => by cases Option.some.inj hx; exact hQ.1 nxt hnm,
        QueuesLive_delInit hQ nxt, hA⟩
    · dsimp only
      by_cases ha : (s.procs c).age < (s.procs c).lifespan
      · rw [if_pos ha]
        by_cases h2 : (s.procs c).prio ≤ (s.procs nxt).prio
        · rw [if_pos h2]
          by_cases hb : (s.procs c).status ≠ PStatus.BLOCKED
          · rw [if_pos hb]
            exact ⟨fun x hx => by cases Option.some.inj hx; exact hQ.1 nxt hnm,
              QueuesLive_delInit (QueuesLive_addTailReady hQ ha) nxt, hA⟩
          · rw [if_neg hb]
            exact ⟨fun x hx => by cases Option.some.inj hx; exact hQ.1 nxt hnm,
              QueuesLive_delInit hQ nxt, hA⟩
        · rw [if_neg h2]
          exact ⟨fun x hx => by cases Option.some.inj hx; exact ha, hQ, hA⟩
      · rw [if_neg ha]
        exact ⟨fun x hx => by cases Option.some.inj hx; exact hQ.1 nxt hnm,
          QueuesLive_delInit hQ nxt, hA⟩

lemma pip_schedule_ok {s : State} (hQ : QueuesLive s) (hA : AgesOk s) :
    SchedOK (pip_schedule s) := by
  unfold pip_schedule
  rcases hq : s.readyqueue with _ | ⟨p, t⟩
  · rcases s.current with _ | c
    · exact SchedOK_none
    · dsimp only
      by_cases ha : (s.procs c).age < (s.procs c).lifespan
      · rw [if_pos ha]
        exact ⟨fun x hx => by cases Option.some.inj hx; exact ha, hQ, hA⟩
      · rw [if_neg ha]
        exact ⟨fun x hx => Option.noConfusion hx, hQ, hA⟩
  · rw [pickBy_cons]
    have hnm : pickFrom (maxBy (prioOf s)) p t ∈ s.readyqueue := by
      rw [hq]
      exact pickBy_mem (pickBy_cons (maxBy (prioOf s)) p t)
    set nxt := pickFrom (maxBy (prioOf s)) p t with hnxt
    rcases s.current with _ | c
    · dsimp only
      exact ⟨fun x hx => by cases Option.some.inj hx; exact hQ.1 nxt hnm,
        QueuesLive_delInit hQ nxt, hA⟩
    · dsimp only
      by_cases ha : (s.procs c).age < (s.procs c).lifespan
      · rw [if_pos ha]
        by_cases h2 : (s.procs c).prio ≤ (s.procs nxt).prio
        · rw [if_pos h2]
          by_cases hb : (s.procs c).status ≠ PStatus.BLOCKED
          · rw [if_pos hb]
            exact ⟨fun x hx => by cases Option.some.inj hx; exact hQ.1 nxt hnm,
              QueuesLive_delInit (QueuesLive_addTailReady hQ ha) nxt, hA⟩
          · rw [if_neg hb]
            exact ⟨fun x hx => by cases Option.some.inj hx; exact hQ.1 nxt hnm,
              QueuesLive_delInit hQ nxt, hA⟩
        · rw [if_neg h2]
          by_cases hb2 : (s.procs c).status = PStatus.BLOCKED
          · rw [if_pos hb2]
            exact ⟨fun x hx => by cases Option.some.inj hx; exact hQ.1 nxt hnm,
              QueuesLive_delInit hQ nxt, hA⟩
          · rw [if_neg hb2]
            exact ⟨fun x hx => by cases Option.some.inj hx; exact ha, hQ, hA⟩
      · rw [if_neg ha]
        exact ⟨fun x hx => by cases Option.some.inj hx; exact hQ.1 nxt hnm,
          QueuesLive_delInit hQ nxt, hA⟩

lemma pa_schedule_ok {s : State} (hQ : QueuesLive s) (hA : AgesOk s) (M : Nat) :
    SchedOK (pa_schedule M s) := by
  unfold pa_schedule
  rcases s.current with _ | c
  · exact pickScan_ok hQ hA _
  · dsimp only
    by_cases hb : (s.procs c).status = PStatus.BLOCKED
    · rw [if_pos hb]
      exact pickScan_ok hQ hA _
    · rw [if_neg hb]
      rcases hq : s.readyqueue with _ | ⟨p, t⟩
      · dsimp only
        by_cases ha : (s.procs c).age < (s.procs c).lifespan
        · rw [if_pos ha]
          exact ⟨fun x hx => by cases Option.some.inj hx; exact ha, hQ, hA⟩
        · rw [if_neg ha]
          exact ⟨fun x hx => Option.noConfusion hx, hQ, hA⟩
      · dsimp only
        simp only [setPrio_readyqueue, hq]
        set s1 := setPrio s c (s.procs c).prio_orig with hs1
        set B := (pa_scan M s1 none (p :: t)).1 with hB
        have hQ1 : QueuesLive s1 := QueuesLive_setPrio hQ c _
        have coreB : coreEq s B :=
          coreEq_trans (coreEq_setPrio s c _) (coreEq_pa_scan M s1 none (p :: t))
        have hQB : QueuesLive B := QueuesLive_pa_scan hQ1 M none (p :: t)
        have hAB : AgesOk B := AgesOk_of_coreEq coreB hA
        rcases hsnd : (pa_scan M s1 none (p :: t)).2 with _ | nxt
        · have hpair : pa_scan M s1 none (p :: t) = (B, none) := by
            have heta : pa_scan M s1 none (p :: t)
                = ((pa_scan M s1 none (p :: t)).1, (pa_scan M s1 none (p :: t)).2) := rfl
            rw [heta, hsnd, ← hB]
          rw [hpair]
          exact SchedOK_none
        · have hpair : pa_scan M s1 none (p :: t) = (B, some nxt) := by
            have heta : pa_scan M s1 none (p :: t)
                = ((pa_scan M s1 none (p :: t)).1, (pa_scan M s1 none (p :: t)).2) := rfl
            rw [heta, hsnd, ← hB]
          rw [hpair]
          have hmem : nxt ∈ s.readyqueue := by
            rcases pa_scan_snd_mem M s1 none (p :: t) nxt hsnd with h | h
            · exact Option.noConfusion h
            · rw [hq]; exact h
          have hlnxtB : liveIn B nxt := liveIn_of_coreEq coreB (hQ.1 nxt hmem)
          dsimp only
          by_cases ha : (B.procs c).age < (B.procs c).lifespan
          · rw [if_pos ha]
            by_cases h2 : (B.procs nxt).prio < (B.procs c).prio
            · rw [if_pos h2]
              exact ⟨fun x hx => by cases Option.some.inj hx; exact ha, hQB, hAB⟩
            · rw [if_neg h2]
              exact ⟨fun x hx => by cases Option.some.inj hx; exact hlnxtB,
                QueuesLive_delInit (QueuesLive_addTailReady hQB ha) nxt, hAB⟩
          · rw [if_neg ha]
            exact ⟨fun x hx => by cases Option.some.inj hx; exact hlnxtB,
              QueuesLive_delInit hQB nxt, hAB⟩

lemma fcfs_acquire_ok {s : State} (hQ : QueuesLive s) (hA : AgesOk s) (rid : Nat)
    (hcur : ∀ c, s.current = some c → liveIn s c) : AcqOK (fcfs_acquire rid s) := by
  unfold fcfs_acquire
  rcases s.owner rid with _ | o
  · exact ⟨QueuesLive_setOwner hQ rid s.current, hA⟩
  · rcases hc : s.current with _ | c
    · trivial
    · dsimp only
      exact ⟨QueuesLive_addTailWait (QueuesLive_setStatus hQ c PStatus.BLOCKED) rid
          (liveIn_of_coreEq (coreEq_setStatus s c PStatus.BLOCKED) (hcur c hc)),
        AgesOk_of_coreEq (coreEq_setStatus s c PStatus.BLOCKED) hA⟩

lemma prio_acquire_ok {s : State} (hQ : QueuesLive s) (hA : AgesOk s) (rid : Nat)
    (hcur : ∀ c, s.current = some c → liveIn s c) : AcqOK (prio_acquire rid s) := by
  unfold prio_acquire
  rcases s.owner rid with _ | o
  · exact ⟨QueuesLive_setOwner hQ rid s.current, hA⟩
  · rcases hc : s.current with _ | c
    · trivial
    · dsimp only
      have h2 : QueuesLive (addTailWait rid c (delInit c s)) :=
        QueuesLive_addTailWait (QueuesLive_delInit hQ c) rid (hcur c hc)
      exact ⟨QueuesLive_setStatus h2 c PStatus.BLOCKED,
        AgesOk_of_coreEq (coreEq_setStatus _ c PStatus.BLOCKED) hA⟩

lemma pa_acquire_ok {s : State} (hQ : QueuesLive s) (hA : AgesOk s) (rid : Nat)
    (hcur : ∀ c, s.current = some c → liveIn s c)
    (hown : ∀ o, s.owner rid = some o → liveIn s o) : AcqOK (pa_acquire rid s) := by
  unfold pa_acquire
  rcases ho : s.owner rid with _ | o
  · exact ⟨QueuesLive_setOwner hQ rid s.current, hA⟩
  · rcases hc : s.current with _ | c
    · trivial
    · dsimp only
      by_cases hcmp : (s.procs c).prio < (s.procs o).prio
      · rw [if_pos hcmp]
        exact ⟨QueuesLive_addTailWait (QueuesLive_setStatus hQ c PStatus.BLOCKED) rid
            (liveIn_of_coreEq (coreEq_setStatus s c PStatus.BLOCKED) (hcur c hc)),
          AgesOk_of_coreEq (coreEq_setStatus s c PStatus.BLOCKED) hA⟩
      · rw [if_neg hcmp]
        exact ⟨QueuesLive_setOwner
            (QueuesLive_addTailWait (QueuesLive_setStatus hQ o PStatus.BLOCKED) rid
              (liveIn_of_coreEq (coreEq_setStatus s o PStatus.BLOCKED) (hown o ho)))
            rid (some c),
          AgesOk_of_coreEq (coreEq_setStatus s o PStatus.BLOCKED) hA⟩

lemma pcp_acquire_ok {s : State} (hQ : QueuesLive s) (hA : AgesOk s) (M rid : Nat)
    (hcur : ∀ c, s.current = some c → liveIn s c) : AcqOK (pcp_acquire M rid s) := by
  unfold pcp_acquire
  rcases s.owner rid with _ | o
  · rcases hc : s.current with _ | c
    · trivial
    · dsimp only
      exact ⟨QueuesLive_setPrio (QueuesLive_setOwner hQ rid (some c)) c M,
        AgesOk_of_coreEq (coreEq_setPrio _ c M) hA⟩
  · rcases hc : s.current with _ | c
    · trivial
    · dsimp only
      have h2 : QueuesLive (addTailWait rid c (delInit c s)) :=
        QueuesLive_addTailWait (QueuesLive_delInit hQ c) rid (hcur c hc)
      exact ⟨QueuesLive_setStatus h2 c PStatus.BLOCKED,
        AgesOk_of_coreEq (coreEq_setStatus _ c PStatus.BLOCKED) hA⟩

lemma pip_acquire_ok {s : State} (hQ : QueuesLive s) (hA : AgesOk s) (rid : Nat)
    (hcur : ∀ c, s.current = some c → liveIn s c) : AcqOK (pip_acquire rid s) := by
  unfold pip_acquire
  rcases ho : s.owner rid with _ | o
  · exact ⟨QueuesLive_setOwner hQ rid s.current, hA⟩
  · rcases hc : s.current with _ | c
    · trivial
    · dsimp only
      by_cases hcmp : (s.procs o).prio < (s.procs c).prio
      · rw [if_pos hcmp]
        have hQ1 : QueuesLive (setPrio s o (s.procs c).prio) := QueuesLive_setPrio hQ o _
        have hlc : liveIn (setPrio s o (s.procs c).prio) c :=
          liveIn_of_coreEq (coreEq_setPrio s o _) (hcur c hc)
        have h2 : QueuesLive (addTailWait rid c (delInit c (setPrio s o (s.procs c).prio))) :=
          QueuesLive_addTailWait (QueuesLive_delInit hQ1 c) rid hlc
        exact ⟨QueuesLive_setStatus h2 c PStatus.BLOCKED,
          AgesOk_of_coreEq
            (coreEq_trans (coreEq_setPrio s o (s.procs c).prio)
              (coreEq_setStatus _ c PStatus.BLOCKED)) hA⟩
      · rw [if_neg hcmp]
        have h2 : QueuesLive (addTailWait rid c (delInit c s)) :=
          QueuesLive_addTailWait (QueuesLive_delInit hQ c) rid (hcur c hc)
        exact ⟨QueuesLive_setStatus h2 c PStatus.BLOCKED,
          AgesOk_of_coreEq (coreEq_setStatus _ c PStatus.BLOCKED) hA⟩

lemma fcfs_release_ok {s : State} (hQ : QueuesLive s) (hA : AgesOk s) (rid : Nat) :
    RelOK (fcfs_release rid s) := by
  unfold fcfs_release
  by_cases h : s.owner rid = s.current
  · rw [if_pos h]
    dsimp only
    simp only [clearOwner_waitq]
    rcases hwq : s.waitq rid with _ | ⟨w, t⟩
    · exact ⟨⟨hQ.1, hQ.2⟩, hA⟩
    · dsimp only
      have hw : w ∈ s.waitq rid := hwq.symm ▸ List.mem_cons_self w t
      have hlw : liveIn s w := hQ.2 rid w hw
      by_cases hb : ((clearOwner rid s).procs w).status = PStatus.BLOCKED
      · rw [if_pos hb]
        exact ⟨QueuesLive_wake hQ hlw,
          AgesOk_of_coreEq (coreEq_wake w (clearOwner rid s)) hA⟩
      · rw [if_neg hb]
        trivial
  · rw [if_neg h]
    trivial

lemma prio_release_ok {s : State} (hQ : QueuesLive s) (hA : AgesOk s) (rid : Nat) :
    RelOK (prio_release rid s) := by
  unfold prio_release
  by_cases h : s.owner rid = s.current
  · rw [if_pos h]
    dsimp only
    simp only [clearOwner_waitq]
    rcases hp : pickBy (maxBy (prioOf (clearOwner rid s))) (s.waitq rid) with _ | w
    · exact ⟨⟨hQ.1, hQ.2⟩, hA⟩
    · dsimp only
      have hw : w ∈ s.waitq rid := pickBy_mem hp
      have hlw : liveIn s w := hQ.2 rid w hw
      by_cases hb : ((clearOwner rid s).procs w).status = PStatus.BLOCKED
      · rw [if_pos hb]
        exact ⟨QueuesLive_wake hQ hlw,
          AgesOk_of_coreEq (coreEq_wake w (clearOwner rid s)) hA⟩
      · rw [if_neg hb]
        trivial
  · rw [if_neg h]
    trivial

lemma pa_release_ok {s : State} (hQ : QueuesLive s) (hA : AgesOk s) (rid : Nat) :
    RelOK (pa_release rid s) := by
  unfold pa_release
  by_cases h : s.owner rid = s.current
  · rw [if_pos h]
    dsimp only
    simp only [clearOwner_waitq, clearOwner_readyqueue]
    rcases hwq : s.waitq rid with _ | ⟨v, tv⟩
    · exact ⟨⟨hQ.1, hQ.2⟩, hA⟩
    · dsimp only
      rcases hp : pickBy (maxBy (prioOf (clearOwner rid s))) s.readyqueue with _ | w
      · trivial
      · dsimp only
        have hw : w ∈ s.readyqueue := pickBy_mem hp
        have hlw : liveIn s w := hQ.1 w hw
        by_cases hb : ((clearOwner rid s).procs w).status = PStatus.BLOCKED
        · rw [if_pos hb]
          exact ⟨QueuesLive_wake hQ hlw,
            AgesOk_of_coreEq (coreEq_wake w (clearOwner rid s)) hA⟩
        · rw [if_neg hb]
          trivial
  · rw [if_neg h]
    trivial

lemma pcp_release_ok {s : State} (hQ : QueuesLive s) (hA : AgesOk s) (rid : Nat) :
    RelOK (pcp_release rid s) := by
  unfold pcp_release
  rcases s.owner rid with _ | o
  · trivial
  · dsimp only
    by_cases h : (setPrio s o (s.procs o).prio_orig).owner rid
        = (setPrio s o (s.procs o).prio_orig).current
    · rw [if_pos h]
      simp only [clearOwner_waitq, setPrio_waitq]
      have hQ1 : QueuesLive (setPrio s o (s.procs o).prio_orig) :=
        QueuesLive_setPrio hQ o _
      rcases hp : pickBy
          (maxBy (prioOf (clearOwner rid (setPrio s o (s.procs o).prio_orig))))
          (s.waitq rid) with _ | w
      · exact ⟨⟨hQ1.1, hQ1.2⟩, AgesOk_of_coreEq (coreEq_setPrio s o _) hA⟩
      · dsimp only
        have hw : w ∈ s.waitq rid := pickBy_mem hp
        have hlw : liveIn (setPrio s o (s.procs o).prio_orig) w :=
          liveIn_of_coreEq (coreEq_setPrio s o _) (hQ.2 rid w hw)
        by_cases hb : ((clearOwner rid (setPrio s o (s.procs o).prio_orig)).procs w).status
            = PStatus.BLOCKED
        · rw [if_pos hb]
          exact ⟨QueuesLive_wake hQ1 hlw,
            AgesOk_of_coreEq
              (coreEq_trans (coreEq_setPrio s o _)
                (coreEq_wake w (clearOwner rid (setPrio s o (s.procs o).prio_orig)))) hA⟩
        · rw [if_neg hb]
          trivial
    · rw [if_neg h]
      trivial

lemma pip_release_ok {s : State} (hQ : QueuesLive s) (hA : AgesOk s) (rid : Nat) :
    RelOK (pip_release rid s) := by
  unfold pip_release
  by_cases h : s.owner rid = s.current
  · rw [if_pos h]
    rcases s.owner rid with _ | o
    · trivial
    · dsimp only
      simp only [clearOwner_waitq, setPrio_waitq]
      have hQ1 : QueuesLive (setPrio s o (s.procs o).prio_orig) :=
        QueuesLive_setPrio hQ o _
      rcases hp : pickBy
          (maxBy (prioOf (clearOwner rid (setPrio s o (s.procs o).prio_orig))))
          (s.waitq rid) with _ | w
      · exact ⟨⟨hQ1.1, hQ1.2⟩, AgesOk_of_coreEq (coreEq_setPrio s o _) hA⟩
      · dsimp only
        have hw : w ∈ s.waitq rid := pickBy_mem hp
        have hlw : liveIn (setPrio s o (s.procs o).prio_orig) w :=
          liveIn_of_coreEq (coreEq_setPrio s o _) (hQ.2 rid w hw)
        by_cases hb : ((clearOwner rid (setPrio s o (s.procs o).prio_orig)).procs w).status
            = PStatus.BLOCKED
        · rw [if_pos hb]
          exact ⟨QueuesLive_wake hQ1 hlw,
            AgesOk_of_coreEq
              (coreEq_trans (coreEq_setPrio s o _)
                (coreEq_wake w (clearOwner rid (setPrio s o (s.procs o).prio_orig)))) hA⟩
        · rw [if_neg hb]
          trivial
  · rw [if_neg h]
    trivial

/-! ## Claim C8 -/

/-- C8: ages are driver-owned (`0 ≤ age` is trivial in the embedding and no
callback ever touches `age` or `lifespan`, so `age ≤ lifespan` is
preserved), and under the documented driver contract — queues hold only
unfinished processes, every process satisfies `age ≤ lifespan`, and the
current process and the contested resource's owner are unfinished — every
schedule callback of every policy returns only unfinished processes, and
every schedule/acquire/release callback of every policy leaves only
unfinished processes in the ready queue and in every wait queue. -/
theorem c8_no_finished_process (M rid : Nat) (s : State)
    (hQ : QueuesLive s) (hA : AgesOk s)
    (hcur : ∀ c, s.current = some c → liveIn s c)
    (hown : ∀ o, s.owner rid = some o → liveIn s o) :
    SchedOK (fcfs_schedule s) ∧ SchedOK (sjf_schedule s)
      ∧ SchedOK (stcf_schedule s) ∧ SchedOK (rr_schedule s)
      ∧ SchedOK (prio_schedule s) ∧ SchedOK (pa_schedule M s)
      ∧ SchedOK (pcp_schedule s) ∧ SchedOK (pip_schedule s)
      ∧ AcqOK (fcfs_acquire rid s) ∧ AcqOK (prio_acquire rid s)
      ∧ AcqOK (pa_acquire rid s) ∧ AcqOK (pcp_acquire M rid s)
      ∧ AcqOK (pip_acquire rid s)
      ∧ RelOK (fcfs_release rid s) ∧ RelOK (prio_release rid s)
      ∧ RelOK (pa_release rid s) ∧ RelOK (pcp_release rid s)
      ∧ RelOK (pip_release rid s) :=
  ⟨fcfs_schedule_ok hQ hA, sjf_schedule_ok hQ hA, stcf_schedule_ok hQ hA,
   rr_schedule_ok hQ hA, prio_schedule_ok hQ hA, pa_schedule_ok hQ hA M,
   pcp_schedule_ok hQ hA, pip_schedule_ok hQ hA,
   fcfs_acquire_ok hQ hA rid hcur, prio_acquire_ok hQ hA rid hcur,
   pa_acquire_ok hQ hA rid hcur hown, pcp_acquire_ok hQ hA M rid hcur,
   pip_acquire_ok hQ hA rid hcur,
   fcfs_release_ok hQ hA rid, prio_release_ok hQ hA rid, pa_release_ok hQ hA rid,
   pcp_release_ok hQ hA rid, pip_release_ok hQ hA rid⟩

/-- Witness for `c8_no_finished_process` at the uniform state `exC8w`
(every process has age 1 and lifespan 2), resource 0 and `PRIO_MAX = 10`. -/
theorem c8_witness :
    SchedOK (fcfs_schedule exC8w) ∧ SchedOK (sjf_schedule exC8w)
      ∧ SchedOK (stcf_schedule exC8w) ∧ SchedOK (rr_schedule exC8w)
      ∧ SchedOK (prio_schedule exC8w) ∧ SchedOK (pa_schedule 10 exC8w)
      ∧ SchedOK (pcp_schedule exC8w) ∧ SchedOK (pip_schedule exC8w)
      ∧ AcqOK (fcfs_acquire 0 exC8w) ∧ AcqOK (prio_acquire 0 exC8w)
      ∧ AcqOK (pa_acquire 0 exC8w) ∧ AcqOK (pcp_acquire 10 0 exC8w)
      ∧ AcqOK (pip_acquire 0 exC8w)
      ∧ RelOK (fcfs_release 0 exC8w) ∧ RelOK (prio_release 0 exC8w)
      ∧ RelOK (pa_release 0 exC8w) ∧ RelOK (pcp_release 0 exC8w)
      ∧ RelOK (pip_release 0 exC8w) :=
  c8_no_finished_process 10 0 exC8w
    ⟨fun _ _ => Nat.one_lt_two, fun _ _ _ => Nat.one_lt_two⟩
    (fun _ => Nat.le_of_lt Nat.one_lt_two)
    (fun _ _ => Nat.one_lt_two)
    (fun _ _ => Nat.one_lt_two)
